import Mathlib

/-!
# A shallow embedding of `shell.c`

The tree-walking execution engine of the shell (`run_command` and the four
components it dispatches to) is embedded as pure functions over an explicit
process state.  One run of a function describes what ONE process does; the
operating system is an oracle (`Env`) that answers the process's system calls.
`fork` returns three ways, as in C: it fails, it returns in the child, or it
returns the child's pid in the parent, so a child process is the same program
run with an oracle that answers "child" at the fork that created it.
-/

namespace Shell

/-! ## Data model -/

/-- The enumeration `CommandType` of shell.c. -/
inductive CommandType where
  | CMD_EXIT
  | CMD_CD
  | CMD_PWD
  | CMD_EXTERNAL
  | CMD_UNKNOWN
deriving DecidableEq, Repr

/-- Modelled from the spec: the `command` member of `node_t` (parser/ast.h is
absent): a program name and an argument vector whose first element is by
convention the program name.  The field `argc` of the C node is the length of
`argv`. -/
structure Command where
  program : String
  argv : List String
deriving DecidableEq, Repr

/-- The `argc` field of a command node. -/
def Command.argc (c : Command) : Nat := c.argv.length

/-- Modelled from the spec: the tagged variant `node_t` (parser/ast.h is
absent).  `execute_command` and `detach_process` read only the `command`
member of the node they are handed, so the stages of a pipe and the child of a
detach are command nodes; `n_parts` is the length of `parts`.  The payload of a
redirect node is never read.  `other` stands for every node type that reaches
the `default` branch of `run_command`. -/
inductive Node where
  | command (c : Command)
  | pipe (parts : List Command)
  | sequence (first second : Node)
  | detach (child : Command)
  | redirect
  | other
deriving Repr

/-- What an open file descriptor refers to. -/
inductive File where
  | terminal
  | regular (name : String)
  | pipe_read (id : Nat)
  | pipe_write (id : Nat)
  | dev_null
deriving DecidableEq, Repr

/-- The call sites of `fork` in shell.c. -/
inductive Site where
  | external
  | stage_one
  | stage_two
  | detach
deriving DecidableEq, Repr

/-- What the operating system answers to a `fork`. -/
inductive ForkAnswer where
  | failed
  | child
  | parent
deriving DecidableEq, Repr

/-- The value `fork()` returns: -1, 0, or the pid of the new child. -/
inductive ForkResult where
  | failed
  | in_child
  | in_parent (pid : Nat)
deriving DecidableEq, Repr

/-- Observable events of one process, in program order. -/
inductive Event where
  | arena_push
  | arena_pop
  | fork (site : Site) (result : ForkResult) (pending : List String)
  | pipe (ok : Bool)
  | waitpid (pid : Nat)
  | wait_all (pids : List Nat)
  | stderr (msg : String)
  | write (dest : Option File) (text : String)
  | exit (code : Int)
deriving DecidableEq, Repr

/-- A child of this process that has been forked and not yet waited for;
`detached` records that `detach_process` launched it. -/
structure Child where
  pid : Nat
  detached : Bool
deriving DecidableEq, Repr

/-- The state of one process. `out_buf` is the stdio buffer of `stdout`,
`fds` the descriptor table, `tick` counts the system calls answered by the
oracle so far, `next_pid` is the pid the next successful fork hands out. -/
structure State where
  trace : List Event
  out_buf : List String
  fds : List (Nat × File)
  children : List Child
  next_pid : Nat
  cwd : String
  tick : Nat
deriving DecidableEq, Repr

/-- The operating system as seen by one process: the answer to the system call
made at a given tick, and whether `stdout` is line buffered (a terminal) or
fully buffered (a file or a pipe). -/
structure Env where
  fork : Site → Nat → ForkAnswer
  pipe_ok : Nat → Bool
  chdir_ok : Nat → Bool
  getcwd_ok : Nat → Bool
  execvp_ok : Nat → Bool
  signal_ok : Nat → Bool
  open_ok : Nat → Bool
  resolve : String → String → String
  line_buffered : Bool

/-- How a function call ends in the process that runs it: it returns to its
caller, the process calls `exit(code)`, or `execvp` replaced the process image.
The code of `exited` is the argument handed to `exit`; a parent that waits for
the process sees its low eight bits. -/
inductive Outcome where
  | returned (s : State)
  | exited (code : Int) (s : State)
  | replaced (program : String) (argv : List String) (s : State)
deriving DecidableEq, Repr

/-- The state in which an outcome leaves the process. -/
def Outcome.state : Outcome → State
  | .returned s => s
  | .exited _ s => s
  | .replaced _ _ s => s

/-- Sequencing of C statements: the continuation runs only when the call returned. -/
def Outcome.andThen (o : Outcome) (k : State → Outcome) : Outcome :=
  match o with
  | .returned s => k s
  | .exited c s => .exited c s
  | .replaced p a s => .replaced p a s

def EXIT_SUCCESS : Int := 0
def EXIT_FAILURE : Int := 1
def STDIN_FILENO : Nat := 0
def STDOUT_FILENO : Nat := 1

/-! ## Library and system-call primitives -/

/-- Appends one event to the trace. -/
def emit (s : State) (e : Event) : State := { s with trace := s.trace ++ [e] }

/-- The oracle has answered one more system call. -/
def advance (s : State) : State := { s with tick := s.tick + 1 }

/-- What a flush of `stdout` writes: nothing when the buffer is empty, else the
buffered text to whatever descriptor 1 refers to. -/
def flush_events (s : State) : List Event :=
  if s.out_buf = [] then [] else [Event.write (s.fds.lookup STDOUT_FILENO) (String.join s.out_buf)]

/-- The call `fflush(stdout)`. -/
def fflush (s : State) : State :=
  { s with trace := s.trace ++ flush_events s, out_buf := [] }

/-- The call `printf` of a line of text (every text printed by shell.c ends in a
newline): the text goes to the buffer, and a line-buffered stream flushes at once. -/
def printf (env : Env) (s : State) (text : String) : State :=
  let s1 := { s with out_buf := s.out_buf ++ [text] }
  if env.line_buffered then fflush s1 else s1

/-- The calls `perror(msg)` and `fprintf(stderr, msg)`: `stderr` is unbuffered. -/
def perror (s : State) (msg : String) : State := emit s (Event.stderr msg)

/-- The call `exit(code)`: flushes `stdout` and ends the process. -/
def do_exit (s : State) (code : Int) : Outcome :=
  Outcome.exited code (emit (fflush s) (Event.exit code))

/-- Modelled from the spec: `arena_push` of arena.h (the allocator is absent): it
enters a scope and returns no value to the caller, so only the call is observed. -/
def arena_push (s : State) : State := emit s Event.arena_push

/-- Modelled from the spec: `arena_pop` of arena.h (the allocator is absent): it
leaves a scope and returns no value to the caller, so only the call is observed. -/
def arena_pop (s : State) : State := emit s Event.arena_pop

/-- The call `fork()` at a call site. The event records the stdout buffer at
that moment, of which the child gets a copy. In the child the list of children
starts empty; in the parent the new child is outstanding. `detached` tells
whether the call site is the one of `detach_process`. -/
def fork (env : Env) (site : Site) (detached : Bool) (s : State) : ForkResult × State :=
  match env.fork site s.tick with
  | ForkAnswer.failed =>
      (ForkResult.failed, emit (advance s) (Event.fork site ForkResult.failed s.out_buf))
  | ForkAnswer.child =>
      (ForkResult.in_child,
        emit { advance s with children := [] } (Event.fork site ForkResult.in_child s.out_buf))
  | ForkAnswer.parent =>
      (ForkResult.in_parent s.next_pid,
        emit { advance s with
                children := s.children ++ [{ pid := s.next_pid, detached := detached }],
                next_pid := s.next_pid + 1 }
          (Event.fork site (ForkResult.in_parent s.next_pid) s.out_buf))

/-- The lowest descriptor number that is not open. -/
def lowest_free (fds : List (Nat × File)) : Nat :=
  ((List.range (fds.length + 1)).find? (fun n => (fds.lookup n).isNone)).getD fds.length

/-- The call `close(fd)`. -/
def close (s : State) (fd : Nat) : State :=
  { s with fds := s.fds.filter (fun p => p.1 ≠ fd) }

/-- The call `dup2(oldfd, newfd)`: fails when `oldfd` is not open, else makes
`newfd` refer to the same file (closing what it referred to before). -/
def dup2 (s : State) (oldfd newfd : Nat) : Bool × State :=
  match s.fds.lookup oldfd with
  | none => (false, s)
  | some f => (true, { s with fds := (newfd, f) :: s.fds.filter (fun p => p.1 ≠ newfd) })

/-- The call `pipe(pipefd)`: on success the two lowest free descriptors become
the read end and the write end of a new pipe. -/
def pipe (env : Env) (s : State) : Option (Nat × Nat) × State :=
  if env.pipe_ok s.tick then
    let r := lowest_free s.fds
    let fds1 := (r, File.pipe_read s.tick) :: s.fds
    let w := lowest_free fds1
    (some (r, w),
      emit { advance s with fds := (w, File.pipe_write s.tick) :: fds1 } (Event.pipe true))
  else
    (none, emit (advance s) (Event.pipe false))

/-- The call `open("/dev/null", O_WRONLY)`. -/
def open_dev_null (env : Env) (s : State) : Option Nat × State :=
  if env.open_ok s.tick then
    (some (lowest_free s.fds),
      { advance s with fds := (lowest_free s.fds, File.dev_null) :: s.fds })
  else
    (none, advance s)

/-- The characters `isspace` accepts in the C locale. -/
def isspace (c : Char) : Bool :=
  c.toNat = 32 || (9 ≤ c.toNat && c.toNat ≤ 13)

/-- The characters `isdigit` accepts. -/
def isdigit (c : Char) : Bool := 48 ≤ c.toNat && c.toNat ≤ 57

/-- The decimal digits at the head of a character list, as a number. -/
def strtol_digits : List Char → Nat → Nat
  | [], acc => acc
  | c :: cs, acc => if isdigit c then strtol_digits cs (acc * 10 + (c.toNat - 48)) else acc

/-- The largest `long` of a 64-bit system. -/
def LONG_MAX : Int := 9223372036854775807

/-- The least `long` of a 64-bit system. -/
def LONG_MIN : Int := -9223372036854775808

/-- The library function `strtol(str, NULL, 10)`: leading white space, an
optional sign (45 is the minus sign, 43 the plus sign), then decimal digits up
to the first other character; a value outside the range of `long` is replaced
by the nearest bound. -/
def strtol (str : String) : Int :=
  let value : Int :=
    match str.toList.dropWhile isspace with
    | [] => 0
    | c :: rest =>
        if c.toNat = 45 then - (strtol_digits rest 0 : Int)
        else if c.toNat = 43 then (strtol_digits rest 0 : Int)
        else (strtol_digits (c :: rest) 0 : Int)
  max LONG_MIN (min LONG_MAX value)

/-- The conversion of a `long` to the 32-bit `int`: the value modulo 2^32, taken
in the range from -2^31 to 2^31 - 1. -/
def int_of_long (v : Int) : Int := (v + 2147483648) % 4294967296 - 2147483648

/-- The library function `atoi`, which returns an `int`: it is
`(int) strtol(str, NULL, 10)`, so a number that does not fit the `int` wraps
around modulo 2^32. -/
def atoi (str : String) : Int := int_of_long (strtol str)

/-! ## The functions of shell.c -/

/-- Embeds `get_command_type`: `strcmp(cmd, name) == 0` is equality of strings. -/
def get_command_type (cmd : String) : CommandType :=
  if cmd = "exit" then CommandType.CMD_EXIT
  else if cmd = "cd" then CommandType.CMD_CD
  else if cmd = "pwd" then CommandType.CMD_PWD
  else CommandType.CMD_EXTERNAL

/-- Embeds `wait_for_completion`: `waitpid(pid, &status, 0)` blocks until that
child has terminated and reaps it. -/
def wait_for_completion (s : State) (pid : Nat) : State :=
  emit { s with children := s.children.filter (fun c => c.pid ≠ pid) } (Event.waitpid pid)

/-- The loop `while (wait(NULL) > 0);`: it returns once no child of the process
remains, having waited for every outstanding child. -/
def wait_all (s : State) : State :=
  emit { s with children := [] } (Event.wait_all (s.children.map (fun c => c.pid)))

/-- Embeds `execute_external_command`: on a failed fork it reports and returns;
the child calls `execvp` and ends with `EXIT_FAILURE` when that fails; the
parent waits for this child and flushes `stdout`. -/
def execute_external_command (env : Env) (s : State) (cmd : String) (params : List String) :
    Outcome :=
  match fork env Site.external false s with
  | (ForkResult.failed, s1) => Outcome.returned (perror s1 "Error forking process")
  | (ForkResult.in_child, s1) =>
      if env.execvp_ok s1.tick then Outcome.replaced cmd params (advance s1)
      else do_exit (perror (advance s1) "Error executing command") EXIT_FAILURE
  | (ForkResult.in_parent process_id, s1) =>
      Outcome.returned (fflush (wait_for_completion s1 process_id))

/-- The `switch` of `execute_command`, before the final `fflush(stdout)`. The
oracle answers `chdir` and `getcwd`; `getcwd` also fails when the path does not
fit, with its terminator, the buffer of 1024 bytes. -/
def execute_command_switch (env : Env) (s : State) (current : Command) : Outcome :=
  let cmd := current.program
  let params := current.argv
  let arg_count := current.argc
  match get_command_type cmd with
  | CommandType.CMD_EXIT =>
      if 1 < arg_count then do_exit s (atoi (params.getD 1 ""))
      else do_exit s EXIT_SUCCESS
  | CommandType.CMD_CD =>
      if 1 < arg_count then
        if env.chdir_ok s.tick then
          Outcome.returned { advance s with cwd := env.resolve s.cwd (params.getD 1 "") }
        else Outcome.returned (perror (advance s) "Failed to change directory")
      else Outcome.returned (perror s "Error: \x27cd\x27 requires a directory path\n")
  | CommandType.CMD_PWD =>
      if env.getcwd_ok s.tick && decide (s.cwd.utf8ByteSize < 1024) then
        Outcome.returned (printf env (advance s) (s.cwd ++ "\n"))
      else Outcome.returned (perror (advance s) "Failed to get current working directory")
  | CommandType.CMD_EXTERNAL => execute_external_command env s cmd params
  | CommandType.CMD_UNKNOWN => Outcome.returned (perror s "Unknown command\n")

/-- Embeds `execute_command`. -/
def execute_command (env : Env) (s : State) (current : Command) : Outcome :=
  (execute_command_switch env s current).andThen (fun s1 => Outcome.returned (fflush s1))

/-- Embeds `execute_pipeline`. `rd` and `wr` are `pipefd[0]` and `pipefd[1]`; the
stages `parts[0]` and `parts[1]` exist once the count has been checked. -/
def execute_pipeline (env : Env) (s : State) (parts : List Command) : Outcome :=
  if parts.length ≠ 2 then
    do_exit (perror s "Error: Pipeline must contain exactly two commands.\n") EXIT_FAILURE
  else
    match pipe env s with
    | (none, s1) => do_exit (perror s1 "Failed to create pipe") EXIT_FAILURE
    | (some (rd, wr), s1) =>
      match fork env Site.stage_one false s1 with
      | (ForkResult.failed, s2) => do_exit (perror s2 "Failed to fork process") EXIT_FAILURE
      | (ForkResult.in_child, s2) =>
          let s3 := close (dup2 s2 wr STDOUT_FILENO).2 rd
          (execute_command env s3 (parts.getD 0 { program := "", argv := [] })).andThen
            (fun s4 => do_exit s4 EXIT_SUCCESS)
      | (ForkResult.in_parent _, s2) =>
        match fork env Site.stage_two false s2 with
        | (ForkResult.failed, s3) => do_exit (perror s3 "Failed to fork process") EXIT_FAILURE
        | (ForkResult.in_child, s3) =>
            let s4 := close (dup2 s3 rd STDIN_FILENO).2 wr
            (execute_command env s4 (parts.getD 1 { program := "", argv := [] })).andThen
              (fun s5 => do_exit s5 EXIT_SUCCESS)
        | (ForkResult.in_parent _, s3) =>
            Outcome.returned (wait_all (close (close s3 rd) wr))

/-- Embeds `detach_process`: the child resets `SIGINT`, sends its standard
output to `/dev/null` and calls `execvp`; the parent prints the notice and
returns without a flush and without a wait. -/
def detach_process (env : Env) (s : State) (node : Command) : Outcome :=
  match fork env Site.detach true s with
  | (ForkResult.failed, s1) => do_exit (perror s1 "fork") EXIT_FAILURE
  | (ForkResult.in_child, s1) =>
      if env.signal_ok s1.tick then
        match open_dev_null env (advance s1) with
        | (none, s2) => do_exit (perror s2 "open") EXIT_FAILURE
        | (some dev_null_fd, s2) =>
          match dup2 s2 dev_null_fd STDOUT_FILENO with
          | (false, s3) => do_exit (perror s3 "dup2") EXIT_FAILURE
          | (true, s3) =>
              let s4 := close s3 dev_null_fd
              if env.execvp_ok s4.tick then
                Outcome.replaced node.program node.argv (advance s4)
              else do_exit (perror (advance s4) "execvp") EXIT_FAILURE
      else do_exit (perror (advance s1) "signal") EXIT_FAILURE
  | (ForkResult.in_parent child_pid, s1) =>
      Outcome.returned (printf env s1 ("Started background job " ++ toString child_pid ++ "\n"))

/-- Embeds `run_command`: `arena_push`, the `switch` on the node type, and the
`arena_pop` that is reached when the switch returns. -/
def run_command (env : Env) : Node → State → Outcome
  | Node.command c, s =>
      (execute_command env (arena_push s) c).andThen (fun s1 => Outcome.returned (arena_pop s1))
  | Node.pipe parts, s =>
      (execute_pipeline env (arena_push s) parts).andThen
        (fun s1 => Outcome.returned (arena_pop s1))
  | Node.sequence first second, s =>
      ((run_command env first (arena_push s)).andThen
        (fun s1 => run_command env second s1)).andThen
        (fun s2 => Outcome.returned (arena_pop s2))
  | Node.detach child, s =>
      (detach_process env (arena_push s) child).andThen
        (fun s1 => Outcome.returned (arena_pop s1))
  | Node.redirect, s => Outcome.returned (arena_pop (arena_push s))
  | Node.other, s =>
      Outcome.returned (arena_pop (perror (arena_push s) "Unsupported node type\n"))

/-! ## Observations on runs -/

/-- The events a run appended to the trace of the state it started from. -/
def new_events (s s1 : State) : List Event := s1.trace.drop s.trace.length

/-- Whether an event is a call of the arena allocator. -/
def Event.is_arena : Event → Bool
  | Event.arena_push => true
  | Event.arena_pop => true
  | _ => false

/-- Whether an event is a call of `fork`. -/
def Event.is_fork : Event → Bool
  | Event.fork _ _ _ => true
  | _ => false

/-- Whether an event is a call of `pipe`. -/
def Event.is_pipe : Event → Bool
  | Event.pipe _ => true
  | _ => false

/-- Whether an event is a call of `waitpid` or the wait-for-all loop. -/
def Event.is_wait : Event → Bool
  | Event.waitpid _ => true
  | Event.wait_all _ => true
  | _ => false

/-- Whether an event is a wait that blocks until the child `pid` has terminated. -/
def Event.waits_for (e : Event) (pid : Nat) : Bool :=
  match e with
  | Event.waitpid p => p == pid
  | Event.wait_all pids => pids.contains pid
  | _ => false

/-- Whether the event needs no further wait, given the events after it: only the
fork of a child, seen from the parent, at a site other than the one of
`detach_process`, needs a later wait that covers the child. -/
def Event.settled_by (e : Event) (rest : List Event) : Bool :=
  match e with
  | Event.fork site (ForkResult.in_parent pid) _ =>
      site == Site.detach || rest.any (fun e1 => e1.waits_for pid)
  | _ => true

/-- Every child forked in the trace is waited for later in the trace, or was
forked by `detach_process`. -/
def settled : List Event → Bool
  | [] => true
  | e :: rest => e.settled_by rest && settled rest

/-- The number of `arena_push` calls in a trace. -/
def count_push (seg : List Event) : Nat := seg.count Event.arena_push

/-- The number of `arena_pop` calls in a trace. -/
def count_pop (seg : List Event) : Nat := seg.count Event.arena_pop

/-- No prefix of the trace has more pops than pushes. -/
def well_nested (seg : List Event) : Prop :=
  ∀ k, count_pop (seg.take k) ≤ count_push (seg.take k)

/-- The trace of `s1` extends the trace of `s` by events that all satisfy `P`. -/
def Ext (P : Event → Prop) (s s1 : State) : Prop :=
  ∃ seg, s1.trace = s.trace ++ seg ∧ ∀ e ∈ seg, P e

/-- The new part of the trace holds no call of the arena allocator. -/
def Quiet (s s1 : State) : Prop := Ext (fun e => e.is_arena = false) s s1

/-- The new part of the trace is well nested, and balanced when the call returned. -/
def Nested (s : State) (o : Outcome) : Prop :=
  ∃ seg, o.state.trace = s.trace ++ seg ∧ well_nested seg ∧
    (∀ s1, o = Outcome.returned s1 → count_push seg = count_pop seg)

/-- The new part of the trace is well nested; it is balanced when the call
returned and has an unmatched push otherwise. -/
def Bracketed (s : State) (o : Outcome) : Prop :=
  ∃ seg, o.state.trace = s.trace ++ seg ∧ well_nested seg ∧
    (∀ s1, o = Outcome.returned s1 → count_pop seg = count_push seg) ∧
    ((∀ s1, o ≠ Outcome.returned s1) → count_pop seg < count_push seg)

/-- The new part of the trace is settled. -/
def Settled (s s1 : State) : Prop :=
  ∃ seg, s1.trace = s.trace ++ seg ∧ settled seg = true

/-- The process is the interpreter itself: no fork returns in the child. -/
def Env.is_interpreter (env : Env) : Prop := ∀ site t, env.fork site t ≠ ForkAnswer.child

/-- No pipe creation fails, and no fork of `execute_pipeline` or `detach_process` fails. -/
def Env.resources_ok (env : Env) : Prop :=
  (∀ t, env.pipe_ok t = true) ∧
  ∀ t, env.fork Site.stage_one t ≠ ForkAnswer.failed ∧
    env.fork Site.stage_two t ≠ ForkAnswer.failed ∧
    env.fork Site.detach t ≠ ForkAnswer.failed

/-- Every pipe node of the tree has exactly two stages. -/
def Node.well_shaped : Node → Bool
  | Node.pipe parts => parts.length == 2
  | Node.sequence a b => a.well_shaped && b.well_shaped
  | _ => true

/-- Some command node that `run_command` hands to `execute_command` in the
interpreter itself is the built-in `exit`. -/
def Node.has_exit : Node → Bool
  | Node.command c => c.program == "exit"
  | Node.sequence a b => a.has_exit || b.has_exit
  | _ => false

/-- The argument of the `exit` call that ends the child of a pipeline stage: the
`int` that `atoi` reads from `argv[1]` when the stage is `exit` with an
argument, else `EXIT_SUCCESS`. -/
def stage_status (c : Command) : Int :=
  if c.program = "exit" ∧ 1 < c.argc then atoi (c.argv.getD 1 "") else EXIT_SUCCESS

/-! ## Concrete processes and commands -/

/-- A process that starts with the three standard streams on a terminal. -/
def State.init : State :=
  { trace := [], out_buf := [],
    fds := [(0, File.terminal), (1, File.terminal), (2, File.terminal)],
    children := [], next_pid := 1, cwd := "/", tick := 0 }

/-- A process whose standard output is redirected to a file. -/
def State.init_to_file : State :=
  { State.init with fds := [(0, File.terminal), (1, File.regular "out.txt"), (2, File.terminal)] }

/-- The interpreter process when every system call succeeds: every fork
returns in the parent. `lb` is the buffering mode of `stdout`. -/
def Env.interpreter (lb : Bool) : Env :=
  { fork := fun _ _ => ForkAnswer.parent, pipe_ok := fun _ => true, chdir_ok := fun _ => true,
    getcwd_ok := fun _ => true, execvp_ok := fun _ => true, signal_ok := fun _ => true,
    open_ok := fun _ => true, resolve := fun _ p => p, line_buffered := lb }

/-- The process that the first fork of `execute_pipeline` creates. -/
def Env.stage_one_child : Env :=
  { Env.interpreter true with
    fork := fun site _ => if site = Site.stage_one then ForkAnswer.child else ForkAnswer.parent }

/-- The process that the second fork of `execute_pipeline` creates. -/
def Env.stage_two_child : Env :=
  { Env.interpreter true with
    fork := fun site _ => if site = Site.stage_two then ForkAnswer.child else ForkAnswer.parent }

/-- The interpreter process on a system where every fork fails. -/
def Env.no_processes : Env :=
  { Env.interpreter true with fork := fun _ _ => ForkAnswer.failed }

def cmd_ls : Command := { program := "ls", argv := ["ls"] }
def cmd_wc : Command := { program := "wc", argv := ["wc", "-c"] }
def cmd_pwd : Command := { program := "pwd", argv := ["pwd"] }
def cmd_sleep : Command := { program := "sleep", argv := ["sleep", "100"] }
def cmd_exit7 : Command := { program := "exit", argv := ["exit", "7"] }

/-! ## Basic facts about the primitives and the components -/

@[simp]
theorem emit_trace (s : State) (e : Event) : (emit s e).trace = s.trace ++ [e] := rfl
@[simp]
theorem advance_trace (s : State) : (advance s).trace = s.trace := rfl
@[simp]
theorem fflush_trace (s : State) : (fflush s).trace = s.trace ++ flush_events s := rfl
@[simp]
theorem perror_trace (s : State) (m : String) :
    (perror s m).trace = s.trace ++ [Event.stderr m] := rfl
@[simp]
theorem close_trace (s : State) (fd : Nat) : (close s fd).trace = s.trace := rfl
@[simp]
theorem arena_push_trace (s : State) :
    (arena_push s).trace = s.trace ++ [Event.arena_push] := rfl
@[simp]
theorem arena_pop_trace (s : State) :
    (arena_pop s).trace = s.trace ++ [Event.arena_pop] := rfl

@[simp]
theorem dup2_trace (s : State) (a b : Nat) : (dup2 s a b).2.trace = s.trace := by
  unfold dup2; split <;> rfl

theorem Ext.refl (P : Event → Prop) (s : State) : Ext P s s := ⟨[], by simp, by simp⟩

theorem Ext.of_trace_eq {P : Event → Prop} {s s1 s2 : State} (h : Ext P s s1)
    (ht : s2.trace = s1.trace) : Ext P s s2 := by
  obtain ⟨seg, h1, h2⟩ := h
  exact ⟨seg, by rw [ht, h1], h2⟩

theorem Ext.trans {P : Event → Prop} {s s1 s2 : State} (h : Ext P s s1) (h' : Ext P s1 s2) :
    Ext P s s2 := by
  obtain ⟨a, ha, hPa⟩ := h
  obtain ⟨b, hb, hPb⟩ := h'
  refine ⟨a ++ b, by rw [hb, ha, List.append_assoc], ?_⟩
  intro e he
  rcases List.mem_append.mp he with h | h
  · exact hPa e h
  · exact hPb e h

theorem Ext.emit {P : Event → Prop} {s s1 : State} (h : Ext P s s1) (e : Event) (he : P e) :
    Ext P s (emit s1 e) :=
  h.trans ⟨[e], rfl, by simpa using he⟩

theorem Outcome.andThen_returned {o : Outcome} {k : State → Outcome} {s2 : State}
    (h : o.andThen k = Outcome.returned s2) :
    ∃ s1, o = Outcome.returned s1 ∧ k s1 = Outcome.returned s2 := by
  cases o with
  | returned s1 => exact ⟨s1, rfl, h⟩
  | exited c s1 => cases h
  | replaced p a s1 => cases h

theorem do_exit_ne_returned (s s1 : State) (c : Int) : do_exit s c ≠ Outcome.returned s1 := by
  intro h
  cases h

theorem Quiet.flush {s s1 : State} (h : Quiet s s1) : Quiet s (fflush s1) := by
  refine Ext.trans h ⟨flush_events s1, rfl, ?_⟩
  intro e he
  unfold flush_events at he
  split at he
  · simp at he
  · simp at he; subst he; rfl

theorem Quiet.perror {s s1 : State} (h : Quiet s s1) (m : String) : Quiet s (perror s1 m) :=
  Ext.emit h _ rfl

theorem Quiet.advance {s s1 : State} (h : Quiet s s1) : Quiet s (advance s1) :=
  Ext.of_trace_eq h rfl

theorem Quiet.close {s s1 : State} (h : Quiet s s1) (fd : Nat) : Quiet s (close s1 fd) :=
  Ext.of_trace_eq h rfl

theorem Quiet.dup2 {s s1 : State} (h : Quiet s s1) (a b : Nat) : Quiet s (dup2 s1 a b).2 :=
  Ext.of_trace_eq h (dup2_trace s1 a b)

theorem Quiet.printf {s s1 : State} (h : Quiet s s1) (env : Env) (t : String) :
    Quiet s (printf env s1 t) := by
  unfold Shell.printf
  cases env.line_buffered
  · exact Ext.of_trace_eq h rfl
  · have h2 : Quiet s { s1 with out_buf := s1.out_buf ++ [t] } := Ext.of_trace_eq h rfl
    exact h2.flush

theorem Quiet.do_exit {s s1 : State} (h : Quiet s s1) (c : Int) : Quiet s (do_exit s1 c).state :=
  Ext.emit (Quiet.flush h) _ rfl

theorem Quiet.fork {s s1 : State} (h : Quiet s s1) (env : Env) (site : Site) (d : Bool) :
    Quiet s (fork env site d s1).2 := by
  refine Ext.trans h ?_
  unfold Shell.fork
  cases env.fork site s1.tick <;> exact ⟨[_], rfl, by simp [Event.is_arena]⟩

theorem Quiet.pipe {s s1 : State} (h : Quiet s s1) (env : Env) : Quiet s (pipe env s1).2 := by
  refine Ext.trans h ?_
  unfold Shell.pipe
  cases env.pipe_ok s1.tick <;> exact ⟨[_], rfl, by simp [Event.is_arena]⟩

theorem Quiet.open_dev_null {s s1 : State} (h : Quiet s s1) (env : Env) :
    Quiet s (open_dev_null env s1).2 := by
  refine Ext.of_trace_eq h ?_
  unfold Shell.open_dev_null
  cases env.open_ok s1.tick <;> rfl

theorem Quiet.wait_for_completion {s s1 : State} (h : Quiet s s1) (pid : Nat) :
    Quiet s (wait_for_completion s1 pid) :=
  Ext.trans h ⟨[_], rfl, by simp [Event.is_arena]⟩

theorem Quiet.wait_all {s s1 : State} (h : Quiet s s1) : Quiet s (wait_all s1) :=
  Ext.trans h ⟨[_], rfl, by simp [Event.is_arena]⟩

theorem Quiet.fork_eq {s s1 s2 : State} (h : Quiet s s1) {env : Env} {site : Site} {d : Bool}
    {r : ForkResult} (e : Shell.fork env site d s1 = (r, s2)) : Quiet s s2 := by
  have := h.fork env site d
  rwa [e] at this

theorem Quiet.pipe_eq {s s1 s2 : State} (h : Quiet s s1) {env : Env} {r : Option (Nat × Nat)}
    (e : Shell.pipe env s1 = (r, s2)) : Quiet s s2 := by
  have := h.pipe env
  rwa [e] at this

theorem Quiet.open_eq {s s1 s2 : State} (h : Quiet s s1) {env : Env} {r : Option Nat}
    (e : Shell.open_dev_null env s1 = (r, s2)) : Quiet s s2 := by
  have := h.open_dev_null env
  rwa [e] at this

theorem Quiet.dup2_eq {s s1 s2 : State} (h : Quiet s s1) {a b : Nat} {r : Bool}
    (e : Shell.dup2 s1 a b = (r, s2)) : Quiet s s2 := by
  have := h.dup2 a b
  rwa [e] at this

theorem Quiet.andThen {s0 : State} {o : Outcome} {k : State → Outcome} (h : Quiet s0 o.state)
    (hk : ∀ s1, Quiet s0 s1 → Quiet s0 (k s1).state) : Quiet s0 (o.andThen k).state := by
  cases o with
  | returned s1 => exact hk s1 h
  | exited c s1 => exact h
  | replaced p a s1 => exact h

theorem execute_external_command_quiet (env : Env) (s0 s : State) (h : Quiet s0 s)
    (cmd : String) (params : List String) :
    Quiet s0 (execute_external_command env s cmd params).state := by
  unfold execute_external_command
  rcases hfk : fork env Site.external false s with ⟨r, s1⟩
  have hf := h.fork_eq hfk
  cases r
  · exact hf.perror _
  · dsimp only
    split
    · exact hf.advance
    · exact (hf.advance.perror _).do_exit _
  · exact (hf.wait_for_completion _).flush

theorem execute_command_quiet (env : Env) (s0 s : State) (h : Quiet s0 s) (c : Command) :
    Quiet s0 (execute_command env s c).state := by
  have hsw : Quiet s0 (execute_command_switch env s c).state := by
    unfold execute_command_switch
    dsimp only
    cases get_command_type c.program
    · dsimp only; split
      · exact h.do_exit _
      · exact h.do_exit _
    · dsimp only; split
      · split
        · exact Ext.of_trace_eq h rfl
        · exact h.advance.perror _
      · exact h.perror _
    · dsimp only; split
      · exact h.advance.printf _ _
      · exact h.advance.perror _
    · exact execute_external_command_quiet env s0 s h _ _
    · exact h.perror _
  exact Quiet.andThen hsw (fun s1 h1 => h1.flush)

theorem execute_pipeline_quiet (env : Env) (s0 s : State) (h : Quiet s0 s) (parts : List Command) :
    Quiet s0 (execute_pipeline env s parts).state := by
  unfold execute_pipeline
  split
  · exact (h.perror _).do_exit _
  · rcases hpk : pipe env s with ⟨_ | ⟨rd, wr⟩, s1⟩
    · exact ((h.pipe_eq hpk).perror _).do_exit _
    · dsimp only
      have hp := h.pipe_eq hpk
      rcases hfk : fork env Site.stage_one false s1 with ⟨r, s2⟩
      have hf := hp.fork_eq hfk
      cases r
      · exact (hf.perror _).do_exit _
      · exact Quiet.andThen (execute_command_quiet env s0 _ ((hf.dup2 wr STDOUT_FILENO).close rd) _)
          (fun s4 h4 => h4.do_exit _)
      · dsimp only
        rcases hfk2 : fork env Site.stage_two false s2 with ⟨r2, s3⟩
        have hf2 := hf.fork_eq hfk2
        cases r2
        · exact (hf2.perror _).do_exit _
        · exact Quiet.andThen
            (execute_command_quiet env s0 _ ((hf2.dup2 rd STDIN_FILENO).close wr) _)
            (fun s4 h4 => h4.do_exit _)
        · exact ((hf2.close rd).close wr).wait_all

theorem detach_process_quiet (env : Env) (s0 s : State) (h : Quiet s0 s) (node : Command) :
    Quiet s0 (detach_process env s node).state := by
  unfold detach_process
  rcases hfk : fork env Site.detach true s with ⟨r, s1⟩
  have hf := h.fork_eq hfk
  cases r
  · exact (hf.perror _).do_exit _
  · dsimp only
    split
    · rcases hok : open_dev_null env (advance s1) with ⟨_ | fd, s2⟩
      · exact ((hf.advance.open_eq hok).perror _).do_exit _
      · dsimp only
        have ho := hf.advance.open_eq hok
        rcases hdk : dup2 s2 fd STDOUT_FILENO with ⟨b, s3⟩
        have hd := ho.dup2_eq hdk
        cases b
        · exact (hd.perror _).do_exit _
        · dsimp only
          split
          · exact (hd.close fd).advance
          · exact ((hd.close fd).advance.perror _).do_exit _
    · exact (hf.advance.perror _).do_exit _
  · exact hf.printf _ _

theorem count_push_append (a b : List Event) :
    count_push (a ++ b) = count_push a + count_push b := by
  simp [count_push]

theorem count_pop_append (a b : List Event) :
    count_pop (a ++ b) = count_pop a + count_pop b := by
  simp [count_pop]

theorem well_nested_total {seg : List Event} (h : well_nested seg) :
    count_pop seg ≤ count_push seg := by
  have := h seg.length
  simpa using this

theorem well_nested_append {a b : List Event} (ha : well_nested a) (hb : well_nested b) :
    well_nested (a ++ b) := by
  intro k
  rw [List.take_append_eq_append_take, count_pop_append, count_push_append]
  exact Nat.add_le_add (ha k) (hb _)

theorem quiet_counts {seg : List Event} (h : ∀ e ∈ seg, e.is_arena = false) :
    count_push seg = 0 ∧ count_pop seg = 0 := by
  constructor
  · apply List.count_eq_zero.mpr
    intro hm
    have := h _ hm
    simp [Event.is_arena] at this
  · apply List.count_eq_zero.mpr
    intro hm
    have := h _ hm
    simp [Event.is_arena] at this

theorem quiet_well_nested {seg : List Event} (h : ∀ e ∈ seg, e.is_arena = false) :
    well_nested seg := by
  intro k
  have hk : ∀ e ∈ seg.take k, e.is_arena = false := fun e he => h e (List.mem_of_mem_take he)
  rw [(quiet_counts hk).2]
  exact Nat.zero_le _

theorem Nested.of_quiet {s : State} {o : Outcome} (h : Quiet s o.state) : Nested s o := by
  obtain ⟨seg, h1, h2⟩ := h
  refine ⟨seg, h1, quiet_well_nested h2, fun _ _ => ?_⟩
  rw [(quiet_counts h2).1, (quiet_counts h2).2]

theorem Nested.nested_andThen {s : State} {o : Outcome} {k : State → Outcome} (h : Nested s o)
    (hk : ∀ s1, o = Outcome.returned s1 → Nested s1 (k s1)) : Nested s (o.andThen k) := by
  cases o with
  | returned s1 =>
    obtain ⟨a, ha, hwa, hca⟩ := h
    obtain ⟨b, hb, hwb, hcb⟩ := hk s1 rfl
    refine ⟨a ++ b, ?_, well_nested_append hwa hwb, ?_⟩
    · show (k s1).state.trace = s.trace ++ (a ++ b)
      rw [hb]
      show (Outcome.returned s1).state.trace ++ b = _
      rw [ha, List.append_assoc]
    · intro s2 h2
      rw [count_push_append, count_pop_append, hca s1 rfl, hcb s2 h2]
  | exited c s1 =>
    obtain ⟨a, ha, hwa, _⟩ := h
    exact ⟨a, ha, hwa, fun _ h2 => by cases h2⟩
  | replaced p a s1 =>
    obtain ⟨b, hb, hwb, _⟩ := h
    exact ⟨b, hb, hwb, fun _ h2 => by cases h2⟩

theorem well_nested_bracket {seg : List Event} (h : well_nested seg) (post : List Event)
    (hpost : count_pop post ≤ 1) :
    well_nested (Event.arena_push :: (seg ++ post)) := by
  intro k
  cases k with
  | zero => simp [count_pop, count_push]
  | succ k =>
    rw [List.take_succ_cons, List.take_append_eq_append_take]
    have h1 := h k
    have h2 : count_pop (List.take (k - seg.length) post) ≤ 1 :=
      le_trans (List.Sublist.count_le (List.take_sublist _ _) _) hpost
    simp only [count_pop, count_push, List.count_cons, List.count_append] at *
    simp
    omega

theorem Bracketed.of_nested {s : State} {o : Outcome} (h : Nested (arena_push s) o) :
    Bracketed s (o.andThen (fun s1 => Outcome.returned (arena_pop s1))) := by
  obtain ⟨seg, ht, hw, hc⟩ := h
  cases o with
  | returned s1 =>
    have hb := hc s1 rfl
    refine ⟨Event.arena_push :: (seg ++ [Event.arena_pop]), ?_, ?_, ?_, ?_⟩
    · show (arena_pop s1).trace = _
      have : s1.trace = (arena_push s).trace ++ seg := ht
      simp [this]
    · exact well_nested_bracket hw _ (by simp [count_pop])
    · intro _ _
      simp only [count_pop, count_push, List.count_cons, List.count_append] at *
      simp
      omega
    · intro hne
      exact absurd rfl (hne (arena_pop s1))
  | exited c s1 =>
    refine ⟨Event.arena_push :: (seg ++ []), ?_, ?_, ?_, ?_⟩
    · show s1.trace = _
      have : s1.trace = (arena_push s).trace ++ seg := ht
      simp [this]
    · exact well_nested_bracket hw _ (by simp [count_pop])
    · intro s2 h2; cases h2
    · intro _
      have := well_nested_total hw
      simp only [count_pop, count_push, List.count_cons, List.count_append] at *
      simp
      omega
  | replaced p a s1 =>
    refine ⟨Event.arena_push :: (seg ++ []), ?_, ?_, ?_, ?_⟩
    · show s1.trace = _
      have : s1.trace = (arena_push s).trace ++ seg := ht
      simp [this]
    · exact well_nested_bracket hw _ (by simp [count_pop])
    · intro s2 h2; cases h2
    · intro _
      have := well_nested_total hw
      simp only [count_pop, count_push, List.count_cons, List.count_append] at *
      simp
      omega

theorem Bracketed.nested {s : State} {o : Outcome} (h : Bracketed s o) : Nested s o := by
  obtain ⟨seg, h1, h2, h3, _⟩ := h
  exact ⟨seg, h1, h2, fun s1 e => (h3 s1 e).symm⟩

theorem run_command_bracketed (env : Env) (t : Node) : ∀ s, Bracketed s (run_command env t s) := by
  induction t with
  | command c =>
    intro s
    exact Bracketed.of_nested (Nested.of_quiet (execute_command_quiet env _ _ (Ext.refl _ _) c))
  | pipe parts =>
    intro s
    exact Bracketed.of_nested (Nested.of_quiet (execute_pipeline_quiet env _ _ (Ext.refl _ _) parts))
  | sequence a b iha ihb =>
    intro s
    exact Bracketed.of_nested (Nested.nested_andThen (iha _).nested (fun s1 _ => (ihb s1).nested))
  | detach c =>
    intro s
    exact Bracketed.of_nested (Nested.of_quiet (detach_process_quiet env _ _ (Ext.refl _ _) c))
  | redirect =>
    intro s
    exact Bracketed.of_nested (o := Outcome.returned (arena_push s))
      (Nested.of_quiet (Ext.refl _ _))
  | other =>
    intro s
    exact Bracketed.of_nested (o := Outcome.returned (perror (arena_push s) "Unsupported node type\n"))
      (Nested.of_quiet (Quiet.perror (Ext.refl _ _) _))

theorem new_events_of_append {s s1 : State} {seg : List Event} (h : s1.trace = s.trace ++ seg) :
    new_events s s1 = seg := by
  simp [new_events, h]

theorem settled_by_append (e : Event) (a b : List Event) (h : e.settled_by a = true) :
    e.settled_by (a ++ b) = true := by
  unfold Event.settled_by at *
  split
  · rename_i site pid pend
    simp only [Bool.or_eq_true, List.any_append] at *
    rcases h with h | h
    · exact Or.inl h
    · exact Or.inr (Or.inl h)
  · rfl

theorem settled_append {a b : List Event} (ha : settled a = true) (hb : settled b = true) :
    settled (a ++ b) = true := by
  induction a with
  | nil => simpa using hb
  | cons e a ih =>
    simp only [settled, Bool.and_eq_true, List.cons_append] at *
    exact ⟨settled_by_append e a b ha.1, ih ha.2⟩

theorem Settled.nil (s : State) : Settled s s := ⟨[], by simp, rfl⟩

theorem Settled.append {s s1 s2 : State} (h : Settled s s1) (h' : Settled s1 s2) :
    Settled s s2 := by
  obtain ⟨a, ha, hsa⟩ := h
  obtain ⟨b, hb, hsb⟩ := h'
  exact ⟨a ++ b, by rw [hb, ha, List.append_assoc], settled_append hsa hsb⟩

theorem Settled.same_trace {s s1 s2 : State} (h : Settled s s1) (ht : s2.trace = s1.trace) :
    Settled s s2 := by
  obtain ⟨seg, h1, h2⟩ := h
  exact ⟨seg, by rw [ht, h1], h2⟩

theorem Settled.event {s s1 : State} (h : Settled s s1) (e : Event) (he : settled [e] = true) :
    Settled s (emit s1 e) :=
  h.append ⟨[e], rfl, he⟩

theorem Settled.flushed {s s1 : State} (h : Settled s s1) : Settled s (fflush s1) := by
  refine h.append ⟨flush_events s1, rfl, ?_⟩
  unfold flush_events
  split <;> rfl

theorem Settled.printed {s s1 : State} (h : Settled s s1) (env : Env) (t : String) :
    Settled s (printf env s1 t) := by
  unfold Shell.printf
  cases env.line_buffered
  · exact h.same_trace rfl
  · have h2 : Settled s { s1 with out_buf := s1.out_buf ++ [t] } := h.same_trace rfl
    exact h2.flushed

/-- What a fork that returns in the parent did to the state. -/
theorem fork_in_parent {env : Env} {site : Site} {d : Bool} {s s1 : State} {pid : Nat}
    (h : fork env site d s = (ForkResult.in_parent pid, s1)) :
    pid = s.next_pid ∧
    s1 = emit { advance s with
                  children := s.children ++ [{ pid := s.next_pid, detached := d }],
                  next_pid := s.next_pid + 1 }
          (Event.fork site (ForkResult.in_parent s.next_pid) s.out_buf) := by
  unfold fork at h
  cases hf : env.fork site s.tick <;> rw [hf] at h <;> simp at h
  exact ⟨h.1.symm, h.2.symm⟩

theorem fork_failed {env : Env} {site : Site} {d : Bool} {s s1 : State}
    (h : fork env site d s = (ForkResult.failed, s1)) :
    env.fork site s.tick = ForkAnswer.failed ∧
    s1 = emit (advance s) (Event.fork site ForkResult.failed s.out_buf) := by
  unfold fork at h
  cases hf : env.fork site s.tick <;> rw [hf] at h <;> simp at h
  exact ⟨rfl, h.symm⟩

theorem execute_external_command_settled (env : Env) (s s1 : State) (cmd : String)
    (params : List String) (h : execute_external_command env s cmd params = Outcome.returned s1) :
    Settled s s1 := by
  unfold execute_external_command at h
  rcases hfk : fork env Site.external false s with ⟨r, s2⟩
  rw [hfk] at h
  cases r with
  | failed =>
    simp only [Outcome.returned.injEq] at h
    subst h
    rw [(fork_failed hfk).2]
    exact ((Settled.nil s).event _ (by rfl)).event _ (by rfl)
  | in_child =>
    dsimp only at h
    split at h
    · cases h
    · simp [do_exit] at h
  | in_parent pid =>
    simp only [Outcome.returned.injEq] at h
    subst h
    obtain ⟨hp, hs⟩ := fork_in_parent hfk
    subst hp
    rw [hs]
    refine Settled.flushed ⟨[Event.fork Site.external (ForkResult.in_parent s.next_pid) s.out_buf,
      Event.waitpid s.next_pid], ?_, ?_⟩
    · simp [wait_for_completion, emit, advance]
    · simp [settled, Event.settled_by, Event.waits_for]

theorem pipe_fields {env : Env} {s s1 : State} {r : Option (Nat × Nat)}
    (h : pipe env s = (r, s1)) :
    s1.trace = s.trace ++ [Event.pipe r.isSome] ∧ s1.children = s.children ∧
      s1.next_pid = s.next_pid ∧ s1.out_buf = s.out_buf ∧ s1.tick = s.tick + 1 ∧
      r.isSome = env.pipe_ok s.tick := by
  unfold pipe at h
  cases hp : env.pipe_ok s.tick <;> rw [hp] at h <;> simp at h <;>
    obtain ⟨h1, h2⟩ := h <;> subst h1 <;> subst h2 <;> exact ⟨rfl, rfl, rfl, rfl, rfl, rfl⟩

/-- What a pipeline that returns has done: one pipe, two forks, one sweep that
waits for every child outstanding at that moment. -/
theorem execute_pipeline_returned {env : Env} {s s1 : State} {parts : List Command}
    (h : execute_pipeline env s parts = Outcome.returned s1) :
    s1.trace = s.trace ++
      [Event.pipe true,
       Event.fork Site.stage_one (ForkResult.in_parent s.next_pid) s.out_buf,
       Event.fork Site.stage_two (ForkResult.in_parent (s.next_pid + 1)) s.out_buf,
       Event.wait_all (s.children.map (fun c => c.pid) ++ [s.next_pid, s.next_pid + 1])] ∧
    s1.children = [] := by
  unfold execute_pipeline at h
  split at h
  · exact absurd h (do_exit_ne_returned _ _ _)
  · rcases hpk : pipe env s with ⟨_ | ⟨rd, wr⟩, sp⟩ <;> rw [hpk] at h <;> dsimp only at h
    · exact absurd h (do_exit_ne_returned _ _ _)
    · obtain ⟨hpt, hpc, hpn, hpo, -, -⟩ := pipe_fields hpk
      rcases hf1 : fork env Site.stage_one false sp with ⟨r1, sa⟩
      rw [hf1] at h
      cases r1 with
      | failed => exact absurd h (do_exit_ne_returned _ _ _)
      | in_child =>
        dsimp only at h
        obtain ⟨s4, -, h4⟩ := Outcome.andThen_returned h
        exact absurd h4 (do_exit_ne_returned _ _ _)
      | in_parent p1 =>
        dsimp only at h
        obtain ⟨hp1, hsa⟩ := fork_in_parent hf1
        rcases hf2 : fork env Site.stage_two false sa with ⟨r2, sb⟩
        rw [hf2] at h
        cases r2 with
        | failed => exact absurd h (do_exit_ne_returned _ _ _)
        | in_child =>
          dsimp only at h
          obtain ⟨s4, -, h4⟩ := Outcome.andThen_returned h
          exact absurd h4 (do_exit_ne_returned _ _ _)
        | in_parent p2 =>
          simp only [Outcome.returned.injEq] at h
          obtain ⟨hp2, hsb⟩ := fork_in_parent hf2
          subst h
          constructor
          · rw [hsb, hsa]
            simp [wait_all, close, emit, advance, hpt, hpc, hpn, hpo]
          · rfl

theorem execute_pipeline_settled (env : Env) (s s1 : State) (parts : List Command)
    (h : execute_pipeline env s parts = Outcome.returned s1) : Settled s s1 := by
  obtain ⟨ht, -⟩ := execute_pipeline_returned h
  refine ⟨_, ht, ?_⟩
  simp [settled, Event.settled_by, Event.waits_for]

theorem execute_command_settled (env : Env) (s s1 : State) (c : Command)
    (h : execute_command env s c = Outcome.returned s1) : Settled s s1 := by
  unfold execute_command at h
  obtain ⟨s2, h2, h3⟩ := Outcome.andThen_returned h
  simp only [Outcome.returned.injEq] at h3
  subst h3
  refine Settled.flushed ?_
  unfold execute_command_switch at h2
  dsimp only at h2
  cases hg : get_command_type c.program <;> rw [hg] at h2 <;> dsimp only at h2
  · split at h2 <;> exact absurd h2 (do_exit_ne_returned _ _ _)
  · split at h2
    · split at h2
      · cases h2
        exact (Settled.nil s).same_trace rfl
      · cases h2
        exact (Settled.nil s).event _ (by rfl)
    · cases h2
      exact (Settled.nil s).event _ (by rfl)
  · split at h2
    · cases h2
      have h2 : Settled s (advance s) := (Settled.nil s).same_trace rfl
      exact h2.printed _ _
    · cases h2
      exact (Settled.nil s).event _ (by rfl)
  · exact execute_external_command_settled env s s2 _ _ h2
  · cases h2
    exact (Settled.nil s).event _ (by rfl)

theorem detach_process_settled (env : Env) (s s1 : State) (node : Command)
    (h : detach_process env s node = Outcome.returned s1) : Settled s s1 := by
  unfold detach_process at h
  rcases hfk : fork env Site.detach true s with ⟨r, s2⟩
  rw [hfk] at h
  cases r with
  | failed => exact absurd h (do_exit_ne_returned _ _ _)
  | in_child =>
    dsimp only at h
    split at h
    · rcases hok : open_dev_null env (advance s2) with ⟨_ | fd, s3⟩ <;> rw [hok] at h <;>
        dsimp only at h
      · exact absurd h (do_exit_ne_returned _ _ _)
      · rcases hdk : dup2 s3 fd STDOUT_FILENO with ⟨b, s4⟩
        rw [hdk] at h
        cases b <;> dsimp only at h
        · exact absurd h (do_exit_ne_returned _ _ _)
        · split at h
          · cases h
          · exact absurd h (do_exit_ne_returned _ _ _)
    · exact absurd h (do_exit_ne_returned _ _ _)
  | in_parent pid =>
    simp only [Outcome.returned.injEq] at h
    subst h
    obtain ⟨hp, hs⟩ := fork_in_parent hfk
    rw [hs]
    refine Settled.printed ?_ _ _
    refine Settled.event ?_ _ (by rfl)
    exact (Settled.nil s).same_trace rfl

theorem run_command_settled (env : Env) (t : Node) :
    ∀ s s1, run_command env t s = Outcome.returned s1 → Settled s s1 := by
  induction t with
  | command c =>
    intro s s1 h
    obtain ⟨s2, h2, h3⟩ := Outcome.andThen_returned h
    cases h3
    exact Settled.event (((Settled.nil s).event Event.arena_push (by rfl)).append
      (execute_command_settled env _ _ c h2)) _ (by rfl)
  | pipe parts =>
    intro s s1 h
    obtain ⟨s2, h2, h3⟩ := Outcome.andThen_returned h
    cases h3
    exact Settled.event (((Settled.nil s).event Event.arena_push (by rfl)).append
      (execute_pipeline_settled env _ _ parts h2)) _ (by rfl)
  | sequence a b iha ihb =>
    intro s s1 h
    obtain ⟨s2, h2, h3⟩ := Outcome.andThen_returned h
    cases h3
    obtain ⟨s3, h4, h5⟩ := Outcome.andThen_returned h2
    exact Settled.event ((((Settled.nil s).event Event.arena_push (by rfl)).append
      (iha _ _ h4)).append (ihb _ _ h5)) _ (by rfl)
  | detach c =>
    intro s s1 h
    obtain ⟨s2, h2, h3⟩ := Outcome.andThen_returned h
    cases h3
    exact Settled.event (((Settled.nil s).event Event.arena_push (by rfl)).append
      (detach_process_settled env _ _ c h2)) _ (by rfl)
  | redirect =>
    intro s s1 h
    cases h
    exact ((Settled.nil s).event Event.arena_push (by rfl)).event _ (by rfl)
  | other =>
    intro s s1 h
    cases h
    exact (((Settled.nil s).event Event.arena_push (by rfl)).event (Event.stderr _) (by rfl)).event
      _ (by rfl)

theorem flush_events_mem {s : State} {e : Event} (h : e ∈ flush_events s) :
    ∃ d t, e = Event.write d t := by
  unfold flush_events at h
  split at h
  · simp at h
  · simp at h; exact ⟨_, _, h⟩

theorem int_of_long_range (v : Int) :
    -2147483648 ≤ int_of_long v ∧ int_of_long v ≤ 2147483647 := by
  unfold int_of_long; omega

theorem digitChar_toNat (k : Nat) (hk : k < 10) : (Nat.digitChar k).toNat = 48 + k := by
  interval_cases k <;> rfl

theorem strtol_digits_append (a b : List Char) (acc : Nat) (ha : ∀ c ∈ a, isdigit c = true) :
    strtol_digits (a ++ b) acc = strtol_digits b (strtol_digits a acc) := by
  induction a generalizing acc with
  | nil => rfl
  | cons c a ih =>
    have hc : isdigit c = true := ha c (List.mem_cons_self _ _)
    simp only [List.cons_append, strtol_digits, hc, if_true]
    exact ih _ (fun d hd => ha d (List.mem_cons_of_mem _ hd))

/-- The digits that `Nat.toDigitsCore` puts in front of `ds` are decimal digits
and read back as the number. -/
theorem toDigitsCore_spec (fuel : Nat) : ∀ (n : Nat) (ds : List Char), n < fuel →
    ∃ l, Nat.toDigitsCore 10 fuel n ds = l ++ ds ∧ l ≠ [] ∧ (∀ c ∈ l, isdigit c = true) ∧
      strtol_digits l 0 = n := by
  induction fuel with
  | zero => intro n ds h; omega
  | succ fuel ih =>
    intro n ds h
    have hd : (Nat.digitChar (n % 10)).toNat = 48 + n % 10 :=
      digitChar_toNat _ (Nat.mod_lt _ (by decide))
    have hdig : isdigit (Nat.digitChar (n % 10)) = true := by
      simp only [isdigit, hd, Bool.and_eq_true, decide_eq_true_eq]
      omega
    unfold Nat.toDigitsCore
    by_cases h0 : n / 10 = 0
    · simp only [h0, if_true]
      refine ⟨[Nat.digitChar (n % 10)], rfl, by simp, ?_, ?_⟩
      · intro c hc
        simp only [List.mem_singleton] at hc
        subst hc; exact hdig
      · simp only [strtol_digits, hdig, if_true, hd]
        omega
    · simp only [h0, if_false]
      obtain ⟨l, h1, h2, h3, h4⟩ := ih (n / 10) (Nat.digitChar (n % 10) :: ds) (by omega)
      refine ⟨l ++ [Nat.digitChar (n % 10)], by rw [h1]; simp, by simp, ?_, ?_⟩
      · intro c hc
        rcases List.mem_append.mp hc with hc | hc
        · exact h3 c hc
        · simp only [List.mem_singleton] at hc
          subst hc; exact hdig
      · rw [strtol_digits_append _ _ _ h3, h4]
        simp only [strtol_digits, hdig, if_true, hd]
        omega

theorem toString_digits (n : Nat) :
    ∃ c l, (toString n).toList = c :: l ∧ isdigit c = true ∧ strtol_digits (c :: l) 0 = n := by
  obtain ⟨l, h1, h2, h3, h4⟩ := toDigitsCore_spec (n + 1) n [] (by omega)
  have hl : (toString n).toList = l := by
    show (Nat.toDigits 10 n) = l
    unfold Nat.toDigits
    rw [h1]; simp
  cases l with
  | nil => exact absurd rfl h2
  | cons c l => exact ⟨c, l, hl, h3 c (List.mem_cons_self _ _), h4⟩

theorem strtol_of_digit_head (str : String) (c : Char) (l : List Char)
    (h : str.toList = c :: l) (hc : isdigit c = true) :
    strtol str = max LONG_MIN (min LONG_MAX (strtol_digits (c :: l) 0 : Int)) := by
  have hb : 48 ≤ c.toNat ∧ c.toNat ≤ 57 := by
    simpa [isdigit] using hc
  have hs : isspace c = false := by
    simp only [isspace, Bool.or_eq_false_iff, Bool.and_eq_false_iff, decide_eq_false_iff_not]
    omega
  unfold strtol
  rw [h, List.dropWhile_cons_of_neg (by simp [hs])]
  have h45 : ¬ c.toNat = 45 := by omega
  have h43 : ¬ c.toNat = 43 := by omega
  simp only [h45, h43, if_false]

/-- On the decimal numeral of a number that fits the `int`, `atoi` is that number. -/
theorem atoi_toString (n : Nat) (hn : n < 2147483648) : atoi (toString n) = n := by
  obtain ⟨c, l, h1, h2, h3⟩ := toString_digits n
  unfold atoi
  rw [strtol_of_digit_head _ c l h1 h2, h3]
  unfold int_of_long LONG_MIN LONG_MAX
  omega

/-- On a minus sign followed by the decimal numeral of a number up to 2^31,
`atoi` is the negative of that number. -/
theorem atoi_neg_toString (n : Nat) (hn : n ≤ 2147483648) :
    atoi ("-" ++ toString n) = -(n : Int) := by
  obtain ⟨c, l, h1, h2, h3⟩ := toString_digits n
  have hl : ("-" ++ toString n).toList = Char.ofNat 45 :: c :: l := by
    have h1a : (toString n).data = c :: l := h1
    rw [String.toList, String.data_append, h1a]
    rfl
  have hs : isspace (Char.ofNat 45) = false := by decide
  unfold atoi strtol
  rw [hl, List.dropWhile_cons_of_neg (by simp [hs])]
  have h45 : (Char.ofNat 45).toNat = 45 := by decide
  simp only [h45, if_true, h3]
  unfold int_of_long LONG_MIN LONG_MAX
  omega

theorem execute_command_exit (env : Env) (s : State) (c : Command) (h : c.program = "exit") :
    execute_command env s c =
      Outcome.exited (if 1 < c.argc then atoi (c.argv.getD 1 "") else EXIT_SUCCESS)
        (emit (fflush s)
          (Event.exit (if 1 < c.argc then atoi (c.argv.getD 1 "") else EXIT_SUCCESS))) := by
  unfold execute_command execute_command_switch
  have hg : get_command_type c.program = CommandType.CMD_EXIT := by
    simp [get_command_type, h]
  simp only [hg]
  split <;> rfl

theorem Ext.flush_of {P : Event → Prop} {s s1 : State} (hw : ∀ d t, P (Event.write d t))
    (h : Ext P s s1) : Ext P s (fflush s1) := by
  refine Ext.trans h ⟨flush_events s1, rfl, ?_⟩
  intro e he
  obtain ⟨d, t, hd⟩ := flush_events_mem he
  subst hd
  exact hw d t

theorem Ext.printf_of {P : Event → Prop} {s s1 : State} (hw : ∀ d t, P (Event.write d t))
    (h : Ext P s s1) (env : Env) (t : String) : Ext P s (printf env s1 t) := by
  unfold Shell.printf
  cases env.line_buffered
  · exact Ext.of_trace_eq h rfl
  · have h2 : Ext P s { s1 with out_buf := s1.out_buf ++ [t] } := Ext.of_trace_eq h rfl
    exact Ext.flush_of hw h2

theorem get_command_type_cases (name : String) :
    (get_command_type name = CommandType.CMD_EXIT ↔ name = "exit") ∧
    (get_command_type name = CommandType.CMD_CD ↔ name = "cd") ∧
    (get_command_type name = CommandType.CMD_PWD ↔ name = "pwd") ∧
    (get_command_type name = CommandType.CMD_EXTERNAL ↔
      (name ≠ "exit" ∧ name ≠ "cd" ∧ name ≠ "pwd")) ∧
    get_command_type name ≠ CommandType.CMD_UNKNOWN := by
  unfold get_command_type
  by_cases h1 : name = "exit"
  · subst h1; simp
  · by_cases h2 : name = "cd"
    · subst h2; simp
    · by_cases h3 : name = "pwd"
      · subst h3; simp
      · simp [h1, h2, h3]

theorem execute_command_builtin_no_fork (env : Env) (s : State) (c : Command)
    (h : get_command_type c.program ≠ CommandType.CMD_EXTERNAL) :
    Ext (fun e => e.is_fork = false) s (execute_command env s c).state := by
  have hw : ∀ d t, (fun e : Event => e.is_fork = false) (Event.write d t) := fun _ _ => rfl
  have hsw : Ext (fun e => e.is_fork = false) s (execute_command_switch env s c).state := by
    unfold execute_command_switch
    dsimp only
    cases hg : get_command_type c.program
    · dsimp only; split
      · exact Ext.emit (Ext.flush_of hw (Ext.refl _ s)) _ rfl
      · exact Ext.emit (Ext.flush_of hw (Ext.refl _ s)) _ rfl
    · dsimp only; split
      · split
        · exact Ext.of_trace_eq (Ext.refl _ s) rfl
        · exact Ext.emit (Ext.of_trace_eq (Ext.refl _ s) rfl) _ rfl
      · exact Ext.emit (Ext.refl _ s) _ rfl
    · dsimp only; split
      · have h2 : Ext (fun e => e.is_fork = false) s (advance s) :=
          Ext.of_trace_eq (Ext.refl _ s) rfl
        exact Ext.printf_of hw h2 _ _
      · exact Ext.emit (Ext.of_trace_eq (Ext.refl _ s) rfl) _ rfl
    · exact absurd hg h
    · exact Ext.emit (Ext.refl _ s) _ rfl
  unfold execute_command
  cases ho : execute_command_switch env s c <;> rw [ho] at hsw
  · exact Ext.flush_of hw hsw
  · exact hsw
  · exact hsw

@[simp]
theorem fflush_children (s : State) : (fflush s).children = s.children := rfl

theorem printf_children (env : Env) (s : State) (t : String) :
    (printf env s t).children = s.children := by
  unfold printf
  cases env.line_buffered <;> rfl

theorem detach_process_returned {env : Env} {s s1 : State} {node : Command}
    (h : detach_process env s node = Outcome.returned s1) :
    env.fork Site.detach s.tick = ForkAnswer.parent ∧
    s1 = printf env
      (emit { advance s with
                children := s.children ++ [{ pid := s.next_pid, detached := true }],
                next_pid := s.next_pid + 1 }
        (Event.fork Site.detach (ForkResult.in_parent s.next_pid) s.out_buf))
      ("Started background job " ++ toString s.next_pid ++ "\n") := by
  unfold detach_process fork at h
  cases hf : env.fork Site.detach s.tick <;> rw [hf] at h <;> dsimp only at h
  · exact absurd h (do_exit_ne_returned _ _ _)
  · split at h
    · rcases hok : open_dev_null env
          (advance (emit { advance s with children := [] }
            (Event.fork Site.detach ForkResult.in_child s.out_buf))) with ⟨_ | fd, s3⟩ <;>
        rw [hok] at h <;> dsimp only at h
      · exact absurd h (do_exit_ne_returned _ _ _)
      · rcases hdk : dup2 s3 fd STDOUT_FILENO with ⟨b, s4⟩
        rw [hdk] at h
        cases b <;> dsimp only at h
        · exact absurd h (do_exit_ne_returned _ _ _)
        · split at h
          · cases h
          · exact absurd h (do_exit_ne_returned _ _ _)
    · exact absurd h (do_exit_ne_returned _ _ _)
  · simp only [Outcome.returned.injEq] at h
    exact ⟨rfl, h.symm⟩

theorem execute_external_command_returned {env : Env} {s s1 : State} {cmd : String}
    {params : List String} (h : execute_external_command env s cmd params = Outcome.returned s1) :
    (env.fork Site.external s.tick = ForkAnswer.failed ∧
      s1 = perror (emit (advance s) (Event.fork Site.external ForkResult.failed s.out_buf))
        "Error forking process") ∨
    (env.fork Site.external s.tick = ForkAnswer.parent ∧
      s1 = fflush (wait_for_completion
        (emit { advance s with
                  children := s.children ++ [{ pid := s.next_pid, detached := false }],
                  next_pid := s.next_pid + 1 }
          (Event.fork Site.external (ForkResult.in_parent s.next_pid) s.out_buf))
        s.next_pid)) := by
  unfold execute_external_command fork at h
  cases hf : env.fork Site.external s.tick <;> rw [hf] at h <;> dsimp only at h
  · simp only [Outcome.returned.injEq] at h
    exact Or.inl ⟨rfl, h.symm⟩
  · split at h
    · cases h
    · exact absurd h (do_exit_ne_returned _ _ _)
  · simp only [Outcome.returned.injEq] at h
    exact Or.inr ⟨rfl, h.symm⟩

theorem fork_of_parent {env : Env} {site : Site} {s : State} (d : Bool)
    (h : env.fork site s.tick = ForkAnswer.parent) :
    fork env site d s =
      (ForkResult.in_parent s.next_pid,
        emit { advance s with
                children := s.children ++ [{ pid := s.next_pid, detached := d }],
                next_pid := s.next_pid + 1 }
          (Event.fork site (ForkResult.in_parent s.next_pid) s.out_buf)) := by
  unfold fork; rw [h]

theorem fork_of_failed {env : Env} {site : Site} {s : State} (d : Bool)
    (h : env.fork site s.tick = ForkAnswer.failed) :
    fork env site d s =
      (ForkResult.failed, emit (advance s) (Event.fork site ForkResult.failed s.out_buf)) := by
  unfold fork; rw [h]

theorem fork_of_child {env : Env} {site : Site} {s : State} (d : Bool)
    (h : env.fork site s.tick = ForkAnswer.child) :
    fork env site d s =
      (ForkResult.in_child,
        emit { advance s with children := [] } (Event.fork site ForkResult.in_child s.out_buf)) := by
  unfold fork; rw [h]

theorem pipe_of_ok {env : Env} {s : State} (h : env.pipe_ok s.tick = true) :
    ∃ rd wr sp, pipe env s = (some (rd, wr), sp) ∧ sp.tick = s.tick + 1 := by
  unfold pipe; rw [h]
  exact ⟨_, _, _, rfl, rfl⟩

theorem pipe_of_fail {env : Env} {s : State} (h : env.pipe_ok s.tick = false) :
    pipe env s = (none, emit (advance s) (Event.pipe false)) := by
  unfold pipe; rw [h]; rfl

theorem stage_status_range (c : Command) :
    -2147483648 ≤ stage_status c ∧ stage_status c ≤ 2147483647 := by
  unfold stage_status
  split
  · exact int_of_long_range _
  · exact ⟨by decide, by decide⟩

/-- How `execute_command` ends in a process that is not the child of the fork
in `execute_external_command`. -/
theorem execute_command_outcome (env : Env) (s : State) (c : Command)
    (hext : ∀ t, env.fork Site.external t ≠ ForkAnswer.child) :
    (c.program = "exit" →
      ∃ s1, execute_command env s c = Outcome.exited (stage_status c) s1) ∧
    (c.program ≠ "exit" → ∃ s1, execute_command env s c = Outcome.returned s1) := by
  obtain ⟨h1, -, -, -, -⟩ := get_command_type_cases c.program
  constructor
  · intro he
    have hs : stage_status c =
        if 1 < c.argc then atoi (c.argv.getD 1 "") else EXIT_SUCCESS := by
      unfold stage_status
      by_cases ha : 1 < c.argc <;> simp [ha, he]
    rw [execute_command_exit env s c he, hs]
    exact ⟨_, rfl⟩
  · intro hne
    have hg : get_command_type c.program ≠ CommandType.CMD_EXIT := fun h => hne (h1.mp h)
    unfold execute_command execute_command_switch
    dsimp only
    cases hgc : get_command_type c.program
    · exact absurd hgc hg
    · dsimp only; split
      · split <;> exact ⟨_, rfl⟩
      · exact ⟨_, rfl⟩
    · dsimp only; split <;> exact ⟨_, rfl⟩
    · dsimp only
      unfold execute_external_command
      cases hf : env.fork Site.external s.tick
      · rw [fork_of_failed false hf]; exact ⟨_, rfl⟩
      · exact absurd hf (hext _)
      · rw [fork_of_parent false hf]; exact ⟨_, rfl⟩
    · exact ⟨_, rfl⟩

theorem execute_pipeline_returns (env : Env) (s : State) (parts : List Command)
    (hi : env.is_interpreter) (hr : env.resources_ok) (hl : parts.length = 2) :
    ∃ s1, execute_pipeline env s parts = Outcome.returned s1 := by
  obtain ⟨rd, wr, sp, hp, -⟩ := pipe_of_ok (hr.1 s.tick)
  unfold execute_pipeline
  simp only [hl, ne_eq, not_true_eq_false, if_false, hp]
  cases h1 : env.fork Site.stage_one sp.tick
  · exact absurd h1 (hr.2 _).1
  · exact absurd h1 (hi _ _)
  · rw [fork_of_parent false h1]
    dsimp only
    generalize (emit { advance sp with
                children := sp.children ++ [{ pid := sp.next_pid, detached := false }],
                next_pid := sp.next_pid + 1 }
          (Event.fork Site.stage_one (ForkResult.in_parent sp.next_pid) sp.out_buf)) = sa
    cases h2 : env.fork Site.stage_two sa.tick
    · exact absurd h2 (hr.2 _).2.1
    · exact absurd h2 (hi _ _)
    · rw [fork_of_parent false h2]
      exact ⟨_, rfl⟩

theorem detach_process_returns (env : Env) (s : State) (c : Command)
    (hi : env.is_interpreter) (hr : env.resources_ok) :
    ∃ s1, detach_process env s c = Outcome.returned s1 := by
  unfold detach_process
  cases h1 : env.fork Site.detach s.tick
  · exact absurd h1 (hr.2 _).2.2
  · exact absurd h1 (hi _ _)
  · rw [fork_of_parent true h1]
    exact ⟨_, rfl⟩

theorem run_command_returns (env : Env) (hi : env.is_interpreter) (hr : env.resources_ok)
    (t : Node) : ∀ s, t.well_shaped = true → t.has_exit = false →
      ∃ s1, run_command env t s = Outcome.returned s1 := by
  induction t with
  | command c =>
    intro s _ hx
    have hne : c.program ≠ "exit" := by simpa [Node.has_exit] using hx
    obtain ⟨s1, h1⟩ := (execute_command_outcome env (arena_push s) c (hi _)).2 hne
    exact ⟨arena_pop s1, by unfold run_command; rw [h1]; rfl⟩
  | pipe parts =>
    intro s hw _
    have hl : parts.length = 2 := by simpa [Node.well_shaped] using hw
    obtain ⟨s1, h1⟩ := execute_pipeline_returns env (arena_push s) parts hi hr hl
    exact ⟨arena_pop s1, by unfold run_command; rw [h1]; rfl⟩
  | sequence a b iha ihb =>
    intro s hw hx
    simp only [Node.well_shaped, Bool.and_eq_true] at hw
    simp only [Node.has_exit, Bool.or_eq_false_iff] at hx
    obtain ⟨s1, h1⟩ := iha (arena_push s) hw.1 hx.1
    obtain ⟨s2, h2⟩ := ihb s1 hw.2 hx.2
    refine ⟨arena_pop s2, ?_⟩
    unfold run_command
    rw [h1]
    show (run_command env b s1).andThen _ = _
    rw [h2]
    rfl
  | detach c =>
    intro s _ _
    obtain ⟨s1, h1⟩ := detach_process_returns env (arena_push s) c hi hr
    exact ⟨arena_pop s1, by unfold run_command; rw [h1]; rfl⟩
  | redirect => intro s _ _; exact ⟨_, rfl⟩
  | other => intro s _ _; exact ⟨_, rfl⟩

/-! ## The claims -/

/-- C1, as amended: on every execution path of `run_command` the run extends the
trace, and no prefix of what it adds has more pops than pushes; when
`run_command` returns, the pops equal the pushes; when the process ends in
`exit` or its image is replaced by `execvp`, the scopes open at that moment are
never closed, so the pops are fewer than the pushes. -/
theorem arena_calls_nested (env : Env) (t : Node) (s : State) :
    (run_command env t s).state.trace = s.trace ++ new_events s (run_command env t s).state ∧
    well_nested (new_events s (run_command env t s).state) ∧
    (∀ s1, run_command env t s = Outcome.returned s1 →
      count_pop (new_events s s1) = count_push (new_events s s1)) ∧
    (∀ c s1, run_command env t s = Outcome.exited c s1 →
      count_pop (new_events s s1) < count_push (new_events s s1)) ∧
    (∀ p a s1, run_command env t s = Outcome.replaced p a s1 →
      count_pop (new_events s s1) < count_push (new_events s s1)) := by
  obtain ⟨seg, h1, h2, h3, h4⟩ := run_command_bracketed env t s
  rw [new_events_of_append h1]
  refine ⟨h1, h2, ?_, ?_, ?_⟩
  · intro s1 e
    rw [e] at h1
    have h1a : s1.trace = s.trace ++ seg := h1
    rw [new_events_of_append h1a]
    exact h3 s1 e
  · intro c s1 e
    rw [e] at h1 h4
    have h1a : s1.trace = s.trace ++ seg := h1
    rw [new_events_of_append h1a]
    exact h4 (fun _ h => by cases h)
  · intro p a s1 e
    rw [e] at h1 h4
    have h1a : s1.trace = s.trace ++ seg := h1
    rw [new_events_of_append h1a]
    exact h4 (fun _ h => by cases h)

/-- Witness for C1 as amended: a sequence of `pwd` and a two-stage pipeline
returns in the interpreter with as many pops as pushes. -/
theorem arena_calls_nested_witness :
    count_pop (new_events State.init
      (run_command (Env.interpreter true)
        (Node.sequence (Node.command cmd_pwd) (Node.pipe [cmd_ls, cmd_wc])) State.init).state) =
    count_push (new_events State.init
      (run_command (Env.interpreter true)
        (Node.sequence (Node.command cmd_pwd) (Node.pipe [cmd_ls, cmd_wc])) State.init).state) :=
  (arena_calls_nested (Env.interpreter true)
    (Node.sequence (Node.command cmd_pwd) (Node.pipe [cmd_ls, cmd_wc])) State.init).2.2.1 _
    (by decide)

/-- Counterexample to C1 as stated: on the path where `execute_pipeline` reports
the three-stage pipeline `ls | wc -c | wc -c`, and on the path of the built-in
`exit 7`, the run has one `arena_push` and no `arena_pop`. -/
theorem arena_scope_left_open_on_exit :
    count_push (new_events State.init
      (run_command (Env.interpreter true) (Node.pipe [cmd_ls, cmd_wc, cmd_wc])
        State.init).state) = 1 ∧
    count_pop (new_events State.init
      (run_command (Env.interpreter true) (Node.pipe [cmd_ls, cmd_wc, cmd_wc])
        State.init).state) = 0 ∧
    count_push (new_events State.init
      (run_command (Env.interpreter true) (Node.command cmd_exit7) State.init).state) = 1 ∧
    count_pop (new_events State.init
      (run_command (Env.interpreter true) (Node.command cmd_exit7) State.init).state) = 0 := by
  decide

/-- C2: when `run_command` returns from the first child of a sequence, the
second child is run from the state the first one left, whatever happened in the
first; and in the events the first child added to the trace, every fork seen
from the parent is followed by a wait that covers the child or is the fork of
`detach_process`. -/
theorem sequence_second_starts_settled (env : Env) (a b : Node) (s s1 : State)
    (h : run_command env a (arena_push s) = Outcome.returned s1) :
    run_command env (Node.sequence a b) s =
      (run_command env b s1).andThen (fun s2 => Outcome.returned (arena_pop s2)) ∧
    s1.trace = (arena_push s).trace ++ new_events (arena_push s) s1 ∧
    settled (new_events (arena_push s) s1) = true := by
  refine ⟨?_, ?_⟩
  · show ((run_command env a (arena_push s)).andThen _).andThen _ = _
    rw [h]
    rfl
  · obtain ⟨seg, h1, h2⟩ := run_command_settled env a _ _ h
    rw [new_events_of_append h1]
    exact ⟨h1, h2⟩

/-- Witness for C2: a detached `sleep` and a pipeline, followed by `pwd`. -/
theorem sequence_second_starts_settled_witness :
    run_command (Env.interpreter true)
        (Node.sequence (Node.sequence (Node.detach cmd_sleep) (Node.pipe [cmd_ls, cmd_wc]))
          (Node.command cmd_pwd)) State.init =
      (run_command (Env.interpreter true) (Node.command cmd_pwd)
        (run_command (Env.interpreter true)
          (Node.sequence (Node.detach cmd_sleep) (Node.pipe [cmd_ls, cmd_wc]))
          (arena_push State.init)).state).andThen
        (fun s2 => Outcome.returned (arena_pop s2)) ∧
    settled (new_events (arena_push State.init)
      (run_command (Env.interpreter true)
        (Node.sequence (Node.detach cmd_sleep) (Node.pipe [cmd_ls, cmd_wc]))
        (arena_push State.init)).state) = true :=
  ⟨(sequence_second_starts_settled (Env.interpreter true)
      (Node.sequence (Node.detach cmd_sleep) (Node.pipe [cmd_ls, cmd_wc])) (Node.command cmd_pwd)
      State.init _ (by decide)).1,
   (sequence_second_starts_settled (Env.interpreter true)
      (Node.sequence (Node.detach cmd_sleep) (Node.pipe [cmd_ls, cmd_wc])) (Node.command cmd_pwd)
      State.init _ (by decide)).2.2⟩

/-- C3: for a pipe node whose stage count is not 2, `execute_pipeline` writes
the diagnostic to the error stream and ends the process with `EXIT_FAILURE`;
the events of the call are the diagnostic, the flush done by `exit`, and the
exit itself, so no pipe is created and no process is forked; `run_command` on
such a node ends the process in the same way, right after its `arena_push`. -/
theorem pipeline_wrong_stage_count_fails_fast (env : Env) (s : State) (parts : List Command)
    (h : parts.length ≠ 2) :
    execute_pipeline env s parts =
      Outcome.exited EXIT_FAILURE
        (emit (fflush (perror s "Error: Pipeline must contain exactly two commands.\n"))
          (Event.exit EXIT_FAILURE)) ∧
    new_events s (execute_pipeline env s parts).state =
      Event.stderr "Error: Pipeline must contain exactly two commands.\n" ::
        (flush_events s ++ [Event.exit EXIT_FAILURE]) ∧
    (∀ e ∈ new_events s (execute_pipeline env s parts).state,
      e.is_fork = false ∧ e.is_pipe = false) ∧
    run_command env (Node.pipe parts) s =
      Outcome.exited EXIT_FAILURE
        (emit (fflush (perror (arena_push s)
          "Error: Pipeline must contain exactly two commands.\n")) (Event.exit EXIT_FAILURE)) := by
  have h0 : ∀ s0 : State, execute_pipeline env s0 parts =
      Outcome.exited EXIT_FAILURE
        (emit (fflush (perror s0 "Error: Pipeline must contain exactly two commands.\n"))
          (Event.exit EXIT_FAILURE)) := by
    intro s0
    unfold execute_pipeline
    rw [if_pos h]
    rfl
  have h1 : execute_pipeline env s parts =
      Outcome.exited EXIT_FAILURE
        (emit (fflush (perror s "Error: Pipeline must contain exactly two commands.\n"))
          (Event.exit EXIT_FAILURE)) := h0 s
  have h2 : new_events s (execute_pipeline env s parts).state =
      Event.stderr "Error: Pipeline must contain exactly two commands.\n" ::
        (flush_events s ++ [Event.exit EXIT_FAILURE]) := by
    rw [h1]
    apply new_events_of_append
    simp [Outcome.state, flush_events, perror, emit]
  refine ⟨h1, h2, ?_, ?_⟩
  swap
  · show (execute_pipeline env (arena_push s) parts).andThen _ = _
    rw [h0]
    rfl
  rw [h2]
  intro e he
  simp only [List.mem_cons, List.mem_append, List.mem_singleton, List.not_mem_nil, or_false] at he
  rcases he with he | he | he
  · subst he; exact ⟨rfl, rfl⟩
  · obtain ⟨d, t, hd⟩ := flush_events_mem he
    subst hd; exact ⟨rfl, rfl⟩
  · subst he; exact ⟨rfl, rfl⟩

/-- Witness for C3: the three-stage pipeline `ls | wc -c | wc -c`. -/
theorem pipeline_wrong_stage_count_witness :
    [cmd_ls, cmd_wc, cmd_wc].length ≠ 2 ∧
    execute_pipeline (Env.interpreter true) State.init [cmd_ls, cmd_wc, cmd_wc] =
      Outcome.exited EXIT_FAILURE
        (emit (fflush (perror State.init "Error: Pipeline must contain exactly two commands.\n"))
          (Event.exit EXIT_FAILURE)) :=
  ⟨by decide, (pipeline_wrong_stage_count_fails_fast (Env.interpreter true) State.init
    [cmd_ls, cmd_wc, cmd_wc] (by decide)).1⟩

/-- C4: for a command named `exit`, `execute_command` does not return: the
process calls `exit` with the `int` that `atoi` reads from `argv[1]` when
`argc > 1`, and with `EXIT_SUCCESS` otherwise. That `int` lies between -2^31
and 2^31 - 1; when `argv[1]` is the decimal numeral of a number below 2^31 it
is that number, and when it is a minus sign and the numeral of a number up to
2^31 it is the negative of that number. -/
theorem exit_builtin_terminates (env : Env) (s : State) (c : Command) (h : c.program = "exit") :
    execute_command env s c =
      Outcome.exited (if 1 < c.argc then atoi (c.argv.getD 1 "") else EXIT_SUCCESS)
        (emit (fflush s)
          (Event.exit (if 1 < c.argc then atoi (c.argv.getD 1 "") else EXIT_SUCCESS))) ∧
    (-2147483648 ≤ atoi (c.argv.getD 1 "") ∧ atoi (c.argv.getD 1 "") ≤ 2147483647) ∧
    (∀ n : Nat, n < 2147483648 → 1 < c.argc → c.argv.getD 1 "" = toString n →
      execute_command env s c =
        Outcome.exited (n : Int) (emit (fflush s) (Event.exit (n : Int)))) ∧
    (∀ n : Nat, n ≤ 2147483648 → 1 < c.argc → c.argv.getD 1 "" = "-" ++ toString n →
      execute_command env s c =
        Outcome.exited (-(n : Int)) (emit (fflush s) (Event.exit (-(n : Int))))) := by
  refine ⟨execute_command_exit env s c h, int_of_long_range _, ?_, ?_⟩
  · intro n hn ha hv
    rw [execute_command_exit env s c h, if_pos ha, hv, atoi_toString n hn]
  · intro n hn ha hv
    rw [execute_command_exit env s c h, if_pos ha, hv, atoi_neg_toString n hn]

/-- Witness for C4: `exit 7` calls `exit(7)` and bare `exit` calls `exit(0)`;
`exit -1` calls `exit(-1)`; `exit " 42abc"` calls `exit(42)`; and
`exit 4294967303`, which does not fit the `int`, calls `exit(7)`. -/
theorem exit_builtin_witness :
    execute_command (Env.interpreter true) State.init { program := "exit", argv := ["exit", "7"] } =
      Outcome.exited 7 (emit (fflush State.init) (Event.exit 7)) ∧
    execute_command (Env.interpreter true) State.init { program := "exit", argv := ["exit"] } =
      Outcome.exited 0 (emit (fflush State.init) (Event.exit 0)) ∧
    execute_command (Env.interpreter true) State.init
        { program := "exit", argv := ["exit", "-1"] } =
      Outcome.exited (-1) (emit (fflush State.init) (Event.exit (-1))) ∧
    execute_command (Env.interpreter true) State.init
        { program := "exit", argv := ["exit", " 42abc"] } =
      Outcome.exited 42 (emit (fflush State.init) (Event.exit 42)) ∧
    execute_command (Env.interpreter true) State.init
        { program := "exit", argv := ["exit", "4294967303"] } =
      Outcome.exited 7 (emit (fflush State.init) (Event.exit 7)) :=
  ⟨(exit_builtin_terminates (Env.interpreter true) State.init
      { program := "exit", argv := ["exit", "7"] } rfl).2.2.1 7 (by decide) (by decide) rfl,
   (exit_builtin_terminates (Env.interpreter true) State.init
      { program := "exit", argv := ["exit"] } rfl).1,
   (exit_builtin_terminates (Env.interpreter true) State.init
      { program := "exit", argv := ["exit", "-1"] } rfl).2.2.2 1 (by decide) (by decide) rfl,
   (exit_builtin_terminates (Env.interpreter true) State.init
      { program := "exit", argv := ["exit", " 42abc"] } rfl).1,
   (exit_builtin_terminates (Env.interpreter true) State.init
      { program := "exit", argv := ["exit", "4294967303"] } rfl).1⟩

/-- C5, as amended: a failed pipe creation and a failed fork in
`execute_pipeline` or `detach_process` end the process with `EXIT_FAILURE`, and
a sequence does not go on to its second child after that; a failed fork in
`execute_external_command` is reported and the function returns; and in the
interpreter itself, when no such pipe or fork fails, every pipeline has two
stages and no command is the built-in `exit`, `run_command` returns whatever
else fails. -/
theorem resource_failure_policy (env : Env) (s : State) (a b : Command) :
    (env.pipe_ok s.tick = false →
      ∃ s1, execute_pipeline env s [a, b] = Outcome.exited EXIT_FAILURE s1) ∧
    (env.pipe_ok s.tick = true → env.fork Site.stage_one (s.tick + 1) = ForkAnswer.failed →
      ∃ s1, execute_pipeline env s [a, b] = Outcome.exited EXIT_FAILURE s1) ∧
    (env.pipe_ok s.tick = true → env.fork Site.stage_one (s.tick + 1) = ForkAnswer.parent →
      env.fork Site.stage_two (s.tick + 2) = ForkAnswer.failed →
      ∃ s1, execute_pipeline env s [a, b] = Outcome.exited EXIT_FAILURE s1) ∧
    (env.fork Site.detach s.tick = ForkAnswer.failed →
      ∃ s1, detach_process env s a = Outcome.exited EXIT_FAILURE s1) ∧
    (∀ t1 t2 c s1, run_command env t1 (arena_push s) = Outcome.exited c s1 →
      run_command env (Node.sequence t1 t2) s = Outcome.exited c s1) ∧
    (env.fork Site.external s.tick = ForkAnswer.failed →
      execute_external_command env s a.program a.argv =
        Outcome.returned
          (perror (emit (advance s) (Event.fork Site.external ForkResult.failed s.out_buf))
            "Error forking process")) ∧
    (∀ t, env.is_interpreter → env.resources_ok → t.well_shaped = true → t.has_exit = false →
      ∃ s1, run_command env t s = Outcome.returned s1) := by
  refine ⟨?_, ?_, ?_, ?_, ?_, ?_, ?_⟩
  · intro hp
    unfold execute_pipeline
    simp only [List.length_cons, List.length_nil, ne_eq, not_true_eq_false, if_false,
      pipe_of_fail hp]
    exact ⟨_, rfl⟩
  · intro hp h1
    obtain ⟨rd, wr, sp, hpe, hpt⟩ := pipe_of_ok hp
    rw [← hpt] at h1
    unfold execute_pipeline
    simp only [List.length_cons, List.length_nil, ne_eq, not_true_eq_false, if_false, hpe,
      fork_of_failed false h1]
    exact ⟨_, rfl⟩
  · intro hp h1 h2
    obtain ⟨rd, wr, sp, hpe, hpt⟩ := pipe_of_ok hp
    rw [← hpt] at h1
    have h2' : env.fork Site.stage_two
        (emit { advance sp with
                children := sp.children ++ [{ pid := sp.next_pid, detached := false }],
                next_pid := sp.next_pid + 1 }
          (Event.fork Site.stage_one (ForkResult.in_parent sp.next_pid) sp.out_buf)).tick =
        ForkAnswer.failed := by
      show env.fork Site.stage_two (sp.tick + 1) = ForkAnswer.failed
      rw [hpt]; exact h2
    unfold execute_pipeline
    simp only [List.length_cons, List.length_nil, ne_eq, not_true_eq_false, if_false, hpe,
      fork_of_parent false h1, fork_of_failed false h2']
    exact ⟨_, rfl⟩
  · intro h1
    unfold detach_process
    rw [fork_of_failed true h1]
    exact ⟨_, rfl⟩
  · intro t1 t2 c s1 h
    show ((run_command env t1 (arena_push s)).andThen _).andThen _ = _
    rw [h]
    rfl
  · intro h1
    unfold execute_external_command
    rw [fork_of_failed false h1]
  · intro t hi hr hw hx
    exact run_command_returns env hi hr t s hw hx

/-- Witness for C5 as amended: the failed fork of an external command returns,
and a tree with a misused `cd` and an unsupported node returns. -/
theorem resource_failure_policy_witness :
    (execute_external_command Env.no_processes State.init cmd_ls.program cmd_ls.argv =
      Outcome.returned
        (perror (emit (advance State.init)
          (Event.fork Site.external ForkResult.failed State.init.out_buf))
          "Error forking process")) ∧
    (∃ s1, run_command (Env.interpreter true)
      (Node.sequence (Node.command { program := "cd", argv := ["cd"] })
        (Node.sequence Node.other (Node.pipe [cmd_ls, cmd_wc]))) State.init =
      Outcome.returned s1) :=
  ⟨(resource_failure_policy Env.no_processes State.init cmd_ls cmd_wc).2.2.2.2.2.1 rfl,
   (resource_failure_policy (Env.interpreter true) State.init cmd_ls cmd_wc).2.2.2.2.2.2 _
     (fun _ _ h => nomatch h)
     ⟨fun _ => rfl, fun _ => ⟨(fun h => nomatch h), (fun h => nomatch h), (fun h => nomatch h)⟩⟩
     (by decide) (by decide)⟩

/-- Counterexample to C5 as stated: when the fork of `ls` fails in
`execute_external_command`, the interpreter reports it and goes on to run the
next command of the sequence, `pwd`, and returns. -/
theorem external_fork_failure_not_fatal :
    run_command Env.no_processes
        (Node.sequence (Node.command cmd_ls) (Node.command cmd_pwd)) State.init =
      Outcome.returned
        { State.init with
          trace := [Event.arena_push, Event.arena_push,
            Event.fork Site.external ForkResult.failed [],
            Event.stderr "Error forking process", Event.arena_pop,
            Event.arena_push, Event.write (some File.terminal) "/\n", Event.arena_pop,
            Event.arena_pop],
          tick := 2 } := by
  decide

/-- C6, as amended: `detach_process` returns without any wait and leaves the
child outstanding; the wait of `execute_external_command` is for the child it
has just forked and for no other; but the sweep at the end of
`execute_pipeline` waits for every child outstanding at that moment, the
detached ones included. -/
theorem detach_never_waits_sweep_waits_for_all (env : Env) (s : State) :
    (∀ c s1, detach_process env s c = Outcome.returned s1 →
      (∀ e ∈ new_events s s1, e.is_wait = false) ∧
      s1.children = s.children ++ [{ pid := s.next_pid, detached := true }]) ∧
    (∀ cmd params s1, execute_external_command env s cmd params = Outcome.returned s1 →
      ∀ e ∈ new_events s s1, ∀ pid, e.waits_for pid = true → pid = s.next_pid) ∧
    (∀ a b s1, execute_pipeline env s [a, b] = Outcome.returned s1 →
      Event.wait_all (s.children.map (fun c => c.pid) ++ [s.next_pid, s.next_pid + 1])
        ∈ new_events s s1 ∧
      ∀ c ∈ s.children, ∃ e ∈ new_events s s1, e.waits_for c.pid = true) := by
  refine ⟨?_, ?_, ?_⟩
  · intro c s1 h
    obtain ⟨-, hs⟩ := detach_process_returned h
    constructor
    · have hx : Ext (fun e => e.is_wait = false) s s1 := by
        rw [hs]
        refine Ext.printf_of (P := fun e => e.is_wait = false) (fun _ _ => rfl) ?_ _ _
        exact Ext.emit (Ext.of_trace_eq (Ext.refl _ s) rfl) _ rfl
      obtain ⟨seg, h1, h2⟩ := hx
      rw [new_events_of_append h1]
      exact h2
    · rw [hs, printf_children]
      rfl
  · intro cmd params s1 h e he pid hw
    rcases execute_external_command_returned h with ⟨-, hs⟩ | ⟨-, hs⟩
    · have hn : new_events s s1 = [Event.fork Site.external ForkResult.failed s.out_buf,
          Event.stderr "Error forking process"] := by
        apply new_events_of_append
        rw [hs]
        simp [perror, emit, advance]
      rw [hn] at he
      simp only [List.mem_cons, List.mem_singleton, List.not_mem_nil, or_false] at he
      rcases he with he | he <;> subst he <;> simp [Event.waits_for] at hw
    · have hn : ∃ w, new_events s s1 =
          Event.fork Site.external (ForkResult.in_parent s.next_pid) s.out_buf ::
            Event.waitpid s.next_pid :: w ∧ ∀ e ∈ w, ∃ d t, e = Event.write d t := by
        refine ⟨flush_events (wait_for_completion
          (emit { advance s with
                  children := s.children ++ [{ pid := s.next_pid, detached := false }],
                  next_pid := s.next_pid + 1 }
          (Event.fork Site.external (ForkResult.in_parent s.next_pid) s.out_buf))
          s.next_pid), ?_, fun e he => flush_events_mem he⟩
        apply new_events_of_append
        rw [hs]
        simp [wait_for_completion, emit, advance]
      obtain ⟨w, hn1, hn2⟩ := hn
      rw [hn1] at he
      simp only [List.mem_cons] at he
      rcases he with he | he | he
      · subst he; simp [Event.waits_for] at hw
      · subst he; simp [Event.waits_for] at hw; exact hw.symm
      · obtain ⟨d, t, hd⟩ := hn2 e he
        subst hd; simp [Event.waits_for] at hw
  · intro a b s1 h
    obtain ⟨ht, -⟩ := execute_pipeline_returned h
    rw [new_events_of_append ht]
    constructor
    · simp
    · intro c hc
      refine ⟨Event.wait_all (s.children.map (fun c => c.pid) ++ [s.next_pid, s.next_pid + 1]),
        by simp, ?_⟩
      simp only [Event.waits_for, List.contains_eq_any_beq, List.any_append, Bool.or_eq_true,
        List.any_eq_true, List.mem_map]
      exact Or.inl ⟨c.pid, ⟨c, hc, rfl⟩, by simp⟩

/-- Witness for C6 as amended, at the detached child: `detach_process` on
`sleep 100` returns with no wait and with child 1 outstanding as detached; from
that state `execute_external_command` on `ls` waits for child 2 only, and the
sweep of the pipeline `ls | wc -c` waits for the children 1, 2 and 3, so for the
detached child 1. -/
theorem detach_never_waits_witness :
    ((∀ e ∈ new_events State.init
          (detach_process (Env.interpreter true) State.init cmd_sleep).state,
        e.is_wait = false) ∧
      (detach_process (Env.interpreter true) State.init cmd_sleep).state.children =
        [{ pid := 1, detached := true }]) ∧
    (∀ e ∈ new_events (detach_process (Env.interpreter true) State.init cmd_sleep).state
        (execute_external_command (Env.interpreter true)
          (detach_process (Env.interpreter true) State.init cmd_sleep).state "ls" ["ls"]).state,
      ∀ pid, e.waits_for pid = true → pid = 2) ∧
    (Event.wait_all [1, 2, 3] ∈
        new_events (detach_process (Env.interpreter true) State.init cmd_sleep).state
          (execute_pipeline (Env.interpreter true)
            (detach_process (Env.interpreter true) State.init cmd_sleep).state
            [cmd_ls, cmd_wc]).state ∧
      ∀ c ∈ [({ pid := 1, detached := true } : Child)],
        ∃ e ∈ new_events (detach_process (Env.interpreter true) State.init cmd_sleep).state
          (execute_pipeline (Env.interpreter true)
            (detach_process (Env.interpreter true) State.init cmd_sleep).state
            [cmd_ls, cmd_wc]).state,
          e.waits_for c.pid = true) :=
  ⟨(detach_never_waits_sweep_waits_for_all (Env.interpreter true) State.init).1
      cmd_sleep _ (by decide),
   (detach_never_waits_sweep_waits_for_all (Env.interpreter true)
      (detach_process (Env.interpreter true) State.init cmd_sleep).state).2.1
      "ls" ["ls"] _ (by decide),
   (detach_never_waits_sweep_waits_for_all (Env.interpreter true)
      (detach_process (Env.interpreter true) State.init cmd_sleep).state).2.2
      cmd_ls cmd_wc _ (by decide)⟩

/-- Counterexample to C6 as stated: after `sleep 100` is detached as child 1, the
sweep of the following pipeline waits for child 1 together with the two stages. -/
theorem sweep_waits_for_detached_child :
    (run_command (Env.interpreter true)
        (Node.sequence (Node.detach cmd_sleep) (Node.pipe [cmd_ls, cmd_wc])) State.init).state.trace =
      [Event.arena_push,
        Event.arena_push, Event.fork Site.detach (ForkResult.in_parent 1) [],
        Event.write (some File.terminal) "Started background job 1\n", Event.arena_pop,
        Event.arena_push, Event.pipe true,
        Event.fork Site.stage_one (ForkResult.in_parent 2) [],
        Event.fork Site.stage_two (ForkResult.in_parent 3) [],
        Event.wait_all [1, 2, 3], Event.arena_pop,
        Event.arena_pop] ∧
    (Event.wait_all [1, 2, 3]).waits_for 1 = true := by
  decide

/-- C7: `get_command_type` returns `CMD_EXIT`, `CMD_CD`, `CMD_PWD` exactly for
the names "exit", "cd", "pwd", `CMD_EXTERNAL` for every other name and never
`CMD_UNKNOWN`; `execute_command` forks nothing for the three built-ins and is
`execute_external_command` followed by a flush for every other name. -/
theorem builtin_dispatch_by_exact_name (env : Env) (s : State) (c : Command) :
    (get_command_type c.program = CommandType.CMD_EXIT ↔ c.program = "exit") ∧
    (get_command_type c.program = CommandType.CMD_CD ↔ c.program = "cd") ∧
    (get_command_type c.program = CommandType.CMD_PWD ↔ c.program = "pwd") ∧
    (get_command_type c.program = CommandType.CMD_EXTERNAL ↔
      (c.program ≠ "exit" ∧ c.program ≠ "cd" ∧ c.program ≠ "pwd")) ∧
    get_command_type c.program ≠ CommandType.CMD_UNKNOWN ∧
    ((c.program = "exit" ∨ c.program = "cd" ∨ c.program = "pwd") →
      ∀ e ∈ new_events s (execute_command env s c).state, e.is_fork = false) ∧
    ((c.program ≠ "exit" ∧ c.program ≠ "cd" ∧ c.program ≠ "pwd") →
      execute_command env s c =
        (execute_external_command env s c.program c.argv).andThen
          (fun s1 => Outcome.returned (fflush s1))) := by
  obtain ⟨h1, h2, h3, h4, h5⟩ := get_command_type_cases c.program
  refine ⟨h1, h2, h3, h4, h5, ?_, ?_⟩
  · intro hb
    have hne : get_command_type c.program ≠ CommandType.CMD_EXTERNAL := by
      intro he
      obtain ⟨n1, n2, n3⟩ := h4.mp he
      rcases hb with hb | hb | hb
      · exact n1 hb
      · exact n2 hb
      · exact n3 hb
    obtain ⟨seg, hs, hP⟩ := execute_command_builtin_no_fork env s c hne
    rw [new_events_of_append hs]
    exact hP
  · intro hx
    unfold execute_command execute_command_switch
    simp only [h4.mpr hx]

/-- Witness for C7: `pwd` forks nothing, `ls` goes to `execute_external_command`. -/
theorem builtin_dispatch_witness :
    (∀ e ∈ new_events State.init (execute_command (Env.interpreter true) State.init
        { program := "pwd", argv := ["pwd"] }).state, e.is_fork = false) ∧
    execute_command (Env.interpreter true) State.init { program := "ls", argv := ["ls"] } =
      (execute_external_command (Env.interpreter true) State.init "ls" ["ls"]).andThen
        (fun s1 => Outcome.returned (fflush s1)) :=
  ⟨(builtin_dispatch_by_exact_name (Env.interpreter true) State.init
      { program := "pwd", argv := ["pwd"] }).2.2.2.2.2.1 (Or.inr (Or.inr rfl)),
   (builtin_dispatch_by_exact_name (Env.interpreter true) State.init
      { program := "ls", argv := ["ls"] }).2.2.2.2.2.2 (by decide)⟩

/-- C8, as amended: when the pipe is created, the child of either stage of a
two-stage pipeline ends by a call of `exit` with `stage_status` of its command:
with the `int` that `atoi` reads from `argv[1]` when the command is `exit` with
an argument, and with `EXIT_SUCCESS` for every other command, however that
command ends; the argument of `exit` is in the range of the `int`. -/
theorem stage_child_exit_status (env : Env) (s : State) (a b : Command)
    (hpipe : env.pipe_ok s.tick = true)
    (hext : ∀ t, env.fork Site.external t ≠ ForkAnswer.child) :
    (env.fork Site.stage_one (s.tick + 1) = ForkAnswer.child →
      ∃ s1, execute_pipeline env s [a, b] = Outcome.exited (stage_status a) s1) ∧
    (env.fork Site.stage_one (s.tick + 1) = ForkAnswer.parent →
      env.fork Site.stage_two (s.tick + 2) = ForkAnswer.child →
      ∃ s1, execute_pipeline env s [a, b] = Outcome.exited (stage_status b) s1) ∧
    (∀ c : Command, -2147483648 ≤ stage_status c ∧ stage_status c ≤ 2147483647) := by
  obtain ⟨rd, wr, sp, hp, hpt⟩ := pipe_of_ok hpipe
  have key : ∀ (c : Command) (s3 : State),
      ∃ s1, (execute_command env s3 c).andThen (fun s4 => do_exit s4 EXIT_SUCCESS) =
        Outcome.exited (stage_status c) s1 := by
    intro c s3
    obtain ⟨k1, k2⟩ := execute_command_outcome env s3 c hext
    by_cases he : c.program = "exit"
    · obtain ⟨s1, h1⟩ := k1 he
      exact ⟨s1, by rw [h1]; rfl⟩
    · obtain ⟨s1, h1⟩ := k2 he
      have hs : stage_status c = EXIT_SUCCESS := by
        unfold stage_status
        simp [he]
      rw [h1, hs]
      exact ⟨_, rfl⟩
  refine ⟨?_, ?_, fun c => stage_status_range c⟩
  · intro h1
    rw [← hpt] at h1
    unfold execute_pipeline
    simp only [List.length_cons, List.length_nil, ne_eq, not_true_eq_false, if_false, hp,
      fork_of_child false h1]
    exact key _ _
  · intro h1 h2
    rw [← hpt] at h1
    unfold execute_pipeline
    simp only [List.length_cons, List.length_nil, ne_eq, not_true_eq_false, if_false, hp,
      fork_of_parent false h1]
    have h2' : env.fork Site.stage_two
        (emit { advance sp with
                children := sp.children ++ [{ pid := sp.next_pid, detached := false }],
                next_pid := sp.next_pid + 1 }
          (Event.fork Site.stage_one (ForkResult.in_parent sp.next_pid) sp.out_buf)).tick =
        ForkAnswer.child := by
      show env.fork Site.stage_two (sp.tick + 1) = ForkAnswer.child
      rw [hpt]; exact h2
    rw [fork_of_child false h2']
    exact key _ _

/-- Witness for C8 as amended: in `pwd | exit 7` the child of the first stage
ends by `exit(0)` and the child of the second by `exit(7)`; the child of the
first stage of `exit 4294967303 | wc -c` ends by `exit(7)`, the `int` that
`atoi` returns. -/
theorem stage_child_exit_status_witness :
    (∃ s1, execute_pipeline Env.stage_one_child State.init [cmd_pwd, cmd_exit7] =
      Outcome.exited 0 s1) ∧
    (∃ s1, execute_pipeline Env.stage_two_child State.init [cmd_pwd, cmd_exit7] =
      Outcome.exited 7 s1) ∧
    (∃ s1, execute_pipeline Env.stage_one_child State.init
        [{ program := "exit", argv := ["exit", "4294967303"] }, cmd_wc] =
      Outcome.exited 7 s1) :=
  ⟨(stage_child_exit_status Env.stage_one_child State.init cmd_pwd cmd_exit7 rfl
      (fun _ h => nomatch h)).1 rfl,
   (stage_child_exit_status Env.stage_two_child State.init cmd_pwd cmd_exit7 rfl
      (fun _ h => nomatch h)).2.1 rfl rfl,
   (stage_child_exit_status Env.stage_one_child State.init
      { program := "exit", argv := ["exit", "4294967303"] } cmd_wc rfl
      (fun _ h => nomatch h)).1 rfl⟩

/-- Counterexample to C8 as stated: the child of the first stage of
`exit 7 | wc -c` ends with status 7, not with `EXIT_SUCCESS`. -/
theorem stage_child_exits_with_builtin_status :
    execute_pipeline Env.stage_one_child State.init [cmd_exit7, cmd_wc] =
      Outcome.exited 7
        { State.init with
          trace := [Event.pipe true, Event.fork Site.stage_one ForkResult.in_child [],
            Event.exit 7],
          fds := [(1, File.pipe_write 0), (4, File.pipe_write 0), (0, File.terminal),
            (2, File.terminal)],
          tick := 2 } ∧
    (7 : Int) ≠ EXIT_SUCCESS := by
  decide

/-- C9 at the failing input `pwd | wc -c`: `pipe` returns the descriptors 3 (read
end) and 4 (write end); when the child of the first stage ends, the write end
is open as descriptor 1 and still as descriptor 4; when the child of the second
stage ends, the read end is open as descriptor 0 and still as descriptor 3; the
parent has closed both and has no child left when `execute_pipeline` returns. -/
theorem stage_children_keep_original_descriptors :
    (pipe (Env.interpreter true) State.init).1 = some (3, 4) ∧
    (execute_pipeline Env.stage_one_child State.init [cmd_pwd, cmd_wc]).state.fds =
      [(1, File.pipe_write 0), (4, File.pipe_write 0), (0, File.terminal), (2, File.terminal)] ∧
    (execute_pipeline Env.stage_two_child State.init [cmd_pwd, cmd_wc]).state.fds =
      [(0, File.pipe_read 0), (3, File.pipe_read 0), (1, File.terminal), (2, File.terminal)] ∧
    (execute_pipeline (Env.interpreter true) State.init [cmd_pwd, cmd_wc]).state.fds =
      [(0, File.terminal), (1, File.terminal), (2, File.terminal)] ∧
    (execute_pipeline (Env.interpreter true) State.init [cmd_pwd, cmd_wc]).state.children = [] := by
  decide

/-- C10 at the failing input: with a fully buffered `stdout`, `detach_process`
returns in the parent with its notice still in the buffer; in the sequence of a
detached `sleep 100` and `ls`, the fork of `ls` happens with the notice pending;
and when a pipeline follows instead, the child of its first stage gets a copy of
the notice and writes it into the pipe ahead of the output of `pwd`. -/
theorem notice_pending_at_next_fork :
    (∀ (env : Env) (s s1 : State) (c : Command), env.line_buffered = false →
      detach_process env s c = Outcome.returned s1 →
      s1.out_buf = s.out_buf ++ ["Started background job " ++ toString s.next_pid ++ "\n"]) ∧
    (run_command (Env.interpreter false)
        (Node.sequence (Node.detach cmd_sleep) (Node.command cmd_ls))
        State.init_to_file).state.trace =
      [Event.arena_push,
        Event.arena_push, Event.fork Site.detach (ForkResult.in_parent 1) [], Event.arena_pop,
        Event.arena_push,
        Event.fork Site.external (ForkResult.in_parent 2) ["Started background job 1\n"],
        Event.waitpid 2,
        Event.write (some (File.regular "out.txt")) "Started background job 1\n",
        Event.arena_pop,
        Event.arena_pop] ∧
    (run_command { Env.stage_one_child with line_buffered := false }
        (Node.sequence (Node.detach cmd_sleep) (Node.pipe [cmd_pwd, cmd_wc]))
        State.init_to_file).state.trace =
      [Event.arena_push,
        Event.arena_push, Event.fork Site.detach (ForkResult.in_parent 1) [], Event.arena_pop,
        Event.arena_push, Event.pipe true,
        Event.fork Site.stage_one ForkResult.in_child ["Started background job 1\n"],
        Event.write (some (File.pipe_write 1)) "Started background job 1\n/\n",
        Event.exit 0] := by
  refine ⟨?_, by decide, by decide⟩
  intro env s s1 c hb h
  obtain ⟨-, hs⟩ := detach_process_returned h
  rw [hs]
  unfold printf
  rw [hb]
  rfl

end Shell
